import Mathlib

/-!
# webinos policy manager: the node binding `pm.cc`

A shallow embedding of `PolicyManagerInt::EnforceRequest` (src/src/pm.cc), the
function that turns the loosely typed JavaScript argument of `enforceRequest`
into the `Request` handed to the policy decision engine, and of the session
methods `New`, `ReloadPolicy` and `GetPolicyFilename`, followed by theorems about
the request that is built and about the session.

Modelling conventions.

* JavaScript values are the inductive type `JSValue`.  `Has`/`Get` look a key up
  among the own properties of an object; a value that is not an object has no
  properties (the source calls `ToObject()` before every `Has`/`Get`).  The
  inputs on which the source dereferences an empty handle or reads the length of
  a value that is not an array are described apart (`Outcome`, `buildRequestRun`,
  `EnforceRequestRun`, `New`, `ReloadPolicyRun`); `buildRequest` and
  `EnforceRequest` are the request and the call on all other inputs.
* `std::map<string, T>` is an association list with unique keys; `mapSet` is the
  assignment `m[k] = v`, `mapFind` the lookup.  The source never iterates over a
  map, so the order of the entries is not observable.
* The C++ locals `action`, `trigger`, `triggers`, `obs` of `EnforceRequest` are
  declared outside the loops and reused; they are threaded through the loops as
  explicit state, with every `clear()` and every `continue` of the source kept.
* `arraysize(ontology_vector)` comes from a header outside this file; it is the
  parameter `ontologySize` of every definition that uses it.
-/

namespace PolicyManagerInt

/-! ## JavaScript values (the part of the v8 API used by pm.cc) -/

/-- JavaScript values as seen through the v8 handles of pm.cc.  A `number` is an
integral Number; its string is faithful below 10^21 in absolute value (above,
JavaScript prints an exponent), and fractions, NaN and infinities are left out. -/
inductive JSValue where
  | undefined
  | null
  | bool (b : Bool)
  | number (n : Int)
  | string (s : String)
  | array (elems : List JSValue)
  | object (props : List (String × JSValue))

namespace JSValue

/-- The v8 test `IsArray()`. -/
def IsArray : JSValue → Bool
  | array _ => true
  | _ => false

/-- The v8 test `IsObject()`: arrays are objects too. -/
def IsObject : JSValue → Bool
  | array _ => true
  | object _ => true
  | _ => false

/-- The v8 conversion `BooleanValue()`: JavaScript truthiness. -/
def BooleanValue : JSValue → Bool
  | undefined => false
  | null => false
  | bool b => b
  | number n => n != 0
  | string s => s != ""
  | array _ => true
  | object _ => true

/-- The elements of an array (`Local<Array>::Cast`).  A value that is not an
array is read as an array without elements; the source never reads the elements
of such a value without dying first (`triggerFault`, `seedFault`). -/
def elems : JSValue → List JSValue
  | array xs => xs
  | _ => []

/-- The v8 call `Length()` of an array handle. -/
def Length (v : JSValue) : Nat := v.elems.length

/-- The v8 call `Get(i)` of an array handle: an index outside the array reads
`undefined`. -/
def GetIndex (v : JSValue) (i : Nat) : JSValue := v.elems.getD i undefined

/-- The v8 call `ToObject()->Has(key)`.  On null and undefined, where
`ToObject()` is an empty handle and the call kills the process, the value is
`false`; the inputs on which the source gets there are those of `groupFault`,
`triggerFault` and `obligationStepRun`. -/
def Has (v : JSValue) (key : String) : Bool :=
  match v with
  | object props => props.any (fun p => p.1 == key)
  | _ => false

/-- The v8 call `ToObject()->Get(key)`: a missing property reads `undefined`.
Null and undefined are treated as for `Has`. -/
def Get (v : JSValue) (key : String) : JSValue :=
  match v with
  | object props =>
    match props.find? (fun p => p.1 == key) with
    | some p => p.2
    | none => undefined
  | _ => undefined

mutual
/-- The string of an array element inside `Array.prototype.join`. -/
def elemString : JSValue → String
  | undefined => ""
  | null => ""
  | bool true => "true"
  | bool false => "false"
  | number n => toString n
  | string s => s
  | array xs => joinElems xs
  | object _ => "[object Object]"
termination_by structural v => v
/-- The elements of an array joined with commas. -/
def joinElems : List JSValue → String
  | [] => ""
  | x :: r => if r.isEmpty then elemString x else elemString x ++ "," ++ joinElems r
termination_by structural l => l
end

/-- The JavaScript conversion `ToString()`. -/
def ToStringJS : JSValue → String
  | undefined => "undefined"
  | null => "null"
  | v => elemString v

end JSValue

/-- The UTF-16 code units of a character of a JavaScript string: one unit below
U+10000, a surrogate pair above. -/
def utf16Units (c : Char) : List Nat :=
  if c.toNat < 65536 then [c.toNat]
  else [55296 + (c.toNat - 65536) / 1024, 56320 + (c.toNat - 65536) % 1024]

/-- The `char` that v8's `WriteAscii` stores for one code unit: the unit narrowed
to a `char` (its low byte), a NUL being replaced by a space. -/
def asciiChar (u : Nat) : Char :=
  if u % 256 = 0 then ' ' else Char.ofNat (u % 256)

/-- The buffer that `v8::String::AsciiValue` fills (v8 3.x `WriteAscii`): one
`char` per UTF-16 code unit of the string.  A string of ASCII characters other
than NUL is copied as it is; any other character is altered. -/
def WriteAscii (s : String) : String :=
  String.mk ((s.data.map utf16Units).flatten.map asciiChar)

/-- The characters of a C string: a `char*` ends at its first NUL character. -/
def cString (s : String) : String :=
  String.mk (s.data.takeWhile (fun c => c != Char.ofNat 0))

/-- The value `*x` of a `v8::String::AsciiValue x(v)` once it is stored in a
`std::string` or compared with `strcmp`: the string conversion of `v`, written
to the buffer by `WriteAscii` and read as a C string.  The buffer holds no NUL,
so nothing is cut. -/
def JSValue.AsciiValue (v : JSValue) : String := cString (WriteAscii v.ToStringJS)

/-! ## `std::map` with string keys -/

/-- The assignment `m[k] = v` of a `std::map<string, T>`. -/
def mapSet {β : Type} : List (String × β) → String → β → List (String × β)
  | [], k, v => [(k, v)]
  | p :: r, k, v => if p.1 = k then (k, v) :: r else p :: mapSet r k v

/-- The lookup of a key in a `std::map<string, T>`. -/
def mapFind {β : Type} : List (String × β) → String → Option β
  | [], _ => none
  | p :: r, k => if p.1 = k then some p.2 else mapFind r k

/-- The statement `(*m)[k]->push_back(v)` on a `map<string, vector<string>*>`. -/
def mapPushBack : List (String × List String) → String → String → List (String × List String)
  | [], _, _ => []
  | p :: r, k, v => if p.1 = k then (p.1, p.2 ++ [v]) :: r else p :: mapPushBack r k v

/-! ## Tags of the obligation grammar

The tag constants live in a header of the policy manager core that is not part
of this file. -/

/-- Modelled from the spec: `actionIdTag`, the `actionID` field of an action (§4.3, §6). -/
def actionIdTag : String := "actionID"
/-- Modelled from the spec: `actionNotifyTag`, the action kind `ActionNotifyDataSubject` (§4.3). -/
def actionNotifyTag : String := "ActionNotifyDataSubject"
/-- Modelled from the spec: `actionDeleteTag`, the action kind `ActionDelete` (§4.3). -/
def actionDeleteTag : String := "ActionDelete"
/-- Modelled from the spec: `actionAnonymizeTag`, the action kind `ActionAnonymize` (§4.3). -/
def actionAnonymizeTag : String := "ActionAnonymize"
/-- Modelled from the spec: `actionLogTag`, the action kind `ActionLog` (§4.3). -/
def actionLogTag : String := "ActionLog"
/-- Modelled from the spec: `actionSecureLogTag`, the action kind `ActionSecureLog` (§4.3). -/
def actionSecureLogTag : String := "ActionSecureLog"
/-- Modelled from the spec: `mediaTag`, the `media` field of a notify action (§3, §4.3). -/
def mediaTag : String := "media"
/-- Modelled from the spec: `addressTag`, the `address` field of a notify action (§3, §4.3). -/
def addressTag : String := "address"
/-- Modelled from the spec: `triggerIdTag`, the `triggerID` field of a trigger (§4.3, §6). -/
def triggerIdTag : String := "triggerID"
/-- Modelled from the spec: `triggerAtTimeTag`, the trigger kind `TriggerAtTime` (§3, §8). -/
def triggerAtTimeTag : String := "TriggerAtTime"
/-- Modelled from the spec: `triggerPersonalDataAccessedTag`, the trigger kind
PersonalDataAccessedForPurpose (§3). -/
def triggerPersonalDataAccessedTag : String := "TriggerPersonalDataAccessedForPurpose"
/-- Modelled from the spec: `triggerPersonalDataDeletedTag`, the trigger kind
PersonalDataDeleted (§3). -/
def triggerPersonalDataDeletedTag : String := "TriggerPersonalDataDeleted"
/-- Modelled from the spec: `triggerDataSubjectAccessTag`, the trigger kind
DataSubjectAccess (§3). -/
def triggerDataSubjectAccessTag : String := "TriggerDataSubjectAccess"
/-- Modelled from the spec: `startTag`, the `start` field of an AtTime trigger (§3). -/
def startTag : String := "start"
/-- Modelled from the spec: `maxDelayTag`, the `maxDelay` field of a trigger (§3). -/
def maxDelayTag : String := "maxDelay"
/-- Modelled from the spec: `purposeTag`, the purpose vector of a
PersonalDataAccessedForPurpose trigger (§3, §4.3). -/
def purposeTag : String := "purpose"
/-- Modelled from the spec: `uriTag`, the `endpoint` field of a DataSubjectAccess trigger (§3). -/
def uriTag : String := "endpoint"

/-! ## The request -/

/-- The C++ type `obligation`: one action with its triggers. -/
structure obligation where
  action : List (String × String)
  triggers : List (List (String × String))
deriving DecidableEq

/-- The enumeration `Effect` (comment at pm.cc:612). -/
inductive Effect where
  | PERMIT
  | DENY
  | PROMPT_ONESHOT
  | PROMPT_SESSION
  | PROMPT_BLANKET
  | UNDETERMINED
  | INAPPLICABLE

/-- The integer value of an `Effect` (`Integer::New(myEff)`). -/
def Effect.code : Effect → Nat
  | PERMIT => 0
  | DENY => 1
  | PROMPT_ONESHOT => 2
  | PROMPT_SESSION => 3
  | PROMPT_BLANKET => 4
  | UNDETERMINED => 5
  | INAPPLICABLE => 6

/-- The arguments of `new Request(...)` at pm.cc:607 and pm.cc:619. -/
structure Request where
  subject_attrs : List (String × List String)
  resource_attrs : List (String × List String)
  purpose : List Bool
  obs : List obligation
  environment_attrs : List (String × String)

/-! ## Attribute extraction (pm.cc:125-285, 568-604) -/

/-- The subject map right after its creation (pm.cc:125-148): every category of
the catalog with an empty vector. -/
def subject_attrs_init : List (String × List String) :=
  [("user-id", []), ("user-key-cn", []), ("user-key-fingerprint", []),
   ("user-key-root-cn", []), ("user-key-root-fingerprint", []),
   ("id", []),
   ("distributor-key-cn", []), ("distributor-key-fingerprint", []),
   ("distributor-key-root-cn", []), ("distributor-key-root-fingerprint", []),
   ("author-key-cn", []), ("author-key-fingerprint", []),
   ("author-key-root-cn", []), ("author-key-root-fingerprint", []),
   ("target-id", []), ("target-domain", []), ("requestor-id", []),
   ("requestor-domain", []), ("webinos-enabled", [])]

/-- The resource map right after its creation (pm.cc:150-154). -/
def resource_attrs_init : List (String × List String) :=
  [("api-feature", []), ("service-id", []), ("device-cap", []), ("param:feature", [])]

/-- One block `if (g->Has(field)) (*attrs)[category]->push_back(g->Get(field))`. -/
def pushField (g : JSValue) (field category : String)
    (attrs : List (String × List String)) : List (String × List String) :=
  if g.Has field then mapPushBack attrs category (g.Get field).AsciiValue else attrs

/-- One block `if (g->Has(field)) (*attrs)[category] = g->Get(field)` of the
environment map. -/
def setField (g : JSValue) (field category : String)
    (attrs : List (String × String)) : List (String × String) :=
  if g.Has field then mapSet attrs category (g.Get field).AsciiValue else attrs

/-- The resource attributes (pm.cc:150-178). -/
def resourceAttrs (args0 : JSValue) : List (String × List String) :=
  if args0.Has "resourceInfo" then
    let riTmp := args0.Get "resourceInfo"
    pushField riTmp "paramFeature" "param:feature"
      (pushField riTmp "serviceId" "service-id"
        (pushField riTmp "apiFeature" "api-feature"
          (pushField riTmp "deviceCap" "device-cap" resource_attrs_init)))
  else resource_attrs_init

/-- The block on `subjectInfo` (pm.cc:180-207). -/
def subjectInfoAttrs (args0 : JSValue) (attrs : List (String × List String)) :
    List (String × List String) :=
  if args0.Has "subjectInfo" then
    let siTmp := args0.Get "subjectInfo"
    pushField siTmp "userKeyRootFingerprint" "user-key-root-fingerprint"
      (pushField siTmp "userKeyRootCn" "user-key-root-cn"
        (pushField siTmp "userKeyFingerprint" "user-key-fingerprint"
          (pushField siTmp "userKeyCn" "user-key-cn"
            (pushField siTmp "userId" "user-id" attrs))))
  else attrs

/-- The block on `widgetInfo` (pm.cc:209-256). -/
def widgetInfoAttrs (args0 : JSValue) (attrs : List (String × List String)) :
    List (String × List String) :=
  if args0.Has "widgetInfo" then
    let wiTmp := args0.Get "widgetInfo"
    pushField wiTmp "authorKeyRootFingerprint" "author-key-root-fingerprint"
      (pushField wiTmp "authorKeyRootCn" "author-key-root-cn"
        (pushField wiTmp "authorKeyFingerprint" "author-key-fingerprint"
          (pushField wiTmp "authorKeyCn" "author-key-cn"
            (pushField wiTmp "distributorKeyRootFingerprint" "distributor-key-root-fingerprint"
              (pushField wiTmp "distributorKeyRootCn" "distributor-key-root-cn"
                (pushField wiTmp "distributorKeyFingerprint" "distributor-key-fingerprint"
                  (pushField wiTmp "distributorKeyCn" "distributor-key-cn"
                    (pushField wiTmp "id" "id" attrs))))))))
  else attrs

/-- The block on `deviceInfo` (pm.cc:258-285). -/
def deviceInfoAttrs (args0 : JSValue) (attrs : List (String × List String)) :
    List (String × List String) :=
  if args0.Has "deviceInfo" then
    let diTmp := args0.Get "deviceInfo"
    pushField diTmp "webinosEnabled" "webinos-enabled"
      (pushField diTmp "requestorDomain" "requestor-domain"
        (pushField diTmp "requestorId" "requestor-id"
          (pushField diTmp "targetDomain" "target-domain"
            (pushField diTmp "targetId" "target-id" attrs))))
  else attrs

/-- The subject attributes (pm.cc:125-148, 180-285). -/
def subjectAttrs (args0 : JSValue) : List (String × List String) :=
  deviceInfoAttrs args0 (widgetInfoAttrs args0 (subjectInfoAttrs args0 subject_attrs_init))

/-- The environment attributes (pm.cc:568-604). -/
def environmentAttrs (args0 : JSValue) : List (String × String) :=
  if args0.Has "environmentInfo" then
    let eiTmp := args0.Get "environmentInfo"
    setField eiTmp "days-of-month" "days-of-month"
      (setField eiTmp "days-of-week" "days-of-week"
        (setField eiTmp "timemin" "timemin"
          (setField eiTmp "profile" "profile" [])))
  else []

/-! ## The purpose vector (pm.cc:287-322) -/

/-- The loop `for (i = 0; i < arraysize(ontology_vector); i++)` of pm.cc:293-308;
the first argument counts the iterations left, `i` is the loop index and the
list is the vector `purpose`.  The third branch clears the vector and leaves the
loop. -/
def purposeLoop (pTmp : JSValue) : Nat → Nat → List Bool → List Bool
  | 0, _, purpose => purpose
  | left + 1, i, purpose =>
    if (pTmp.GetIndex i).BooleanValue = true then
      purposeLoop pTmp left (i + 1) (purpose ++ [(pTmp.GetIndex i).BooleanValue])
    else if (pTmp.GetIndex i).BooleanValue = false then
      purposeLoop pTmp left (i + 1) (purpose ++ [(pTmp.GetIndex i).BooleanValue])
    else
      []

/-- The vector `purpose` after pm.cc:287-322. -/
def purposeVector (ontologySize : Nat) (args0 : JSValue) : List Bool :=
  if args0.Has "purpose" then
    if (args0.Get "purpose").IsArray then
      let pTmp := args0.Get "purpose"
      if pTmp.Length = ontologySize then
        purposeLoop pTmp ontologySize 0 []
      else
        []
    else
      []
  else
    List.replicate ontologySize true

/-! ## Obligations (pm.cc:324-558) -/

/-- The loop `for (k = 0; k < arraysize(ontology_vector); k++)` of pm.cc:444-459
over the string `purposes` and the map `trigger`; the first argument counts the
iterations left.  The `continue` of the third branch continues this loop. -/
def triggerPurposeLoop (pTmp : JSValue) :
    Nat → Nat → List Char × List (String × String) → List Char × List (String × String)
  | 0, _, st => st
  | left + 1, k, st =>
    if (pTmp.GetIndex k).BooleanValue = true then
      triggerPurposeLoop pTmp left (k + 1) (st.1.set k '1', st.2)
    else if (pTmp.GetIndex k).BooleanValue = false then
      triggerPurposeLoop pTmp left (k + 1) (st.1.set k '0', st.2)
    else
      triggerPurposeLoop pTmp left (k + 1) (st.1, [])

/-- The validation of one trigger once its `triggerID` is stored in the map
`trigger` (pm.cc:405-523).  The result is the map that reaches
`triggers.push_back(trigger)` at pm.cc:530, or `none` on the paths
`trigger.clear(); continue;`. -/
def triggerFields (ontologySize : Nat) (triggerTmp : JSValue) (triggerID : String)
    (trigger : List (String × String)) : Option (List (String × String)) :=
  if triggerID = triggerAtTimeTag then
    if triggerTmp.Has startTag then
      let trigger := mapSet trigger startTag (triggerTmp.Get startTag).AsciiValue
      if triggerTmp.Has maxDelayTag then
        some (mapSet trigger maxDelayTag (triggerTmp.Get maxDelayTag).AsciiValue)
      else none
    else none
  else if triggerID = triggerPersonalDataAccessedTag then
    let purposes := List.replicate ontologySize '0'
    if triggerTmp.Has purposeTag then
      let pTmp := triggerTmp.Get purposeTag
      if pTmp.Length = ontologySize then
        let st := triggerPurposeLoop pTmp ontologySize 0 (purposes, trigger)
        let trigger := mapSet st.2 purposeTag (String.mk st.1)
        if triggerTmp.Has maxDelayTag then
          some (mapSet trigger maxDelayTag (triggerTmp.Get maxDelayTag).AsciiValue)
        else none
      else none
    else none
  else if triggerID = triggerPersonalDataDeletedTag then
    if triggerTmp.Has maxDelayTag then
      some (mapSet trigger maxDelayTag (triggerTmp.Get maxDelayTag).AsciiValue)
    else none
  else if triggerID = triggerDataSubjectAccessTag then
    if triggerTmp.Has uriTag then
      some (mapSet trigger uriTag (triggerTmp.Get uriTag).AsciiValue)
    else none
  else none

/-- The locals of the trigger loop: the map `trigger` and the vector `triggers`. -/
structure TriggerState where
  trigger : List (String × String)
  triggers : List (List (String × String))

/-- One iteration of the loop over `triggersTmp` (pm.cc:399-532). -/
def triggerStep (ontologySize : Nat) (st : TriggerState) (triggerTmp : JSValue) : TriggerState :=
  if triggerTmp.Has triggerIdTag then
    let triggerID := (triggerTmp.Get triggerIdTag).AsciiValue
    match triggerFields ontologySize triggerTmp triggerID (mapSet st.trigger triggerIdTag triggerID) with
    | some trigger => { trigger := [], triggers := st.triggers ++ [trigger] }
    | none => { trigger := [], triggers := st.triggers }
  else
    st

/-- The action part of one iteration of the obligation loop (pm.cc:337-394) on
the map `action`.  The second component tells whether control reaches the
trigger part (pm.cc:395); it is false on every `continue`. -/
def actionStep (action : List (String × String)) (obElem : JSValue) :
    List (String × String) × Bool :=
  if obElem.Has "action" then
    let actTmp := obElem.Get "action"
    if actTmp.Has actionIdTag then
      let actionID := (actTmp.Get actionIdTag).AsciiValue
      let action := mapSet action actionIdTag actionID
      if actionID = actionNotifyTag then
        if actTmp.Has mediaTag then
          let action := mapSet action mediaTag (actTmp.Get mediaTag).AsciiValue
          if actTmp.Has addressTag then
            (mapSet action addressTag (actTmp.Get addressTag).AsciiValue, true)
          else ([], false)
        else ([], false)
      else if actionID ≠ actionDeleteTag ∧ actionID ≠ actionAnonymizeTag ∧
          actionID ≠ actionLogTag ∧ actionID ≠ actionSecureLogTag then
        ([], false)
      else (action, true)
    else (action, false)
  else (action, false)

/-- The locals of the obligation loop (pm.cc:324-328). -/
structure ObligationState where
  obs : List obligation
  action : List (String × String)
  trigger : List (String × String)
  triggers : List (List (String × String))

/-- One iteration of the loop over `obTmp` (pm.cc:336-553). -/
def obligationStep (ontologySize : Nat) (st : ObligationState) (obElem : JSValue) :
    ObligationState :=
  let a := actionStep st.action obElem
  if a.2 = true then
    if obElem.Has "triggers" then
      if (obElem.Get "triggers").IsArray then
        let triggersTmp := obElem.Get "triggers"
        let t := triggersTmp.elems.foldl (triggerStep ontologySize)
          { trigger := st.trigger, triggers := st.triggers }
        { obs := if a.1 ≠ [] ∧ t.triggers ≠ [] then
                   st.obs ++ [{ action := a.1, triggers := t.triggers }]
                 else st.obs,
          action := [], trigger := t.trigger, triggers := [] }
      else { st with action := a.1 }
    else { st with action := a.1 }
  else { st with action := a.1 }

/-- The locals of the obligation loop before its first iteration. -/
def ObligationState.init : ObligationState :=
  { obs := [], action := [], trigger := [], triggers := [] }

/-- The obligation loop over the elements of the `obligations` array. -/
def obligationLoop (ontologySize : Nat) (obTmp : List JSValue) : ObligationState :=
  obTmp.foldl (obligationStep ontologySize) ObligationState.init

/-- The vector `obs` after pm.cc:324-558. -/
def obligationList (ontologySize : Nat) (args0 : JSValue) : List obligation :=
  if args0.Has "obligations" then
    if (args0.Get "obligations").IsArray then
      (obligationLoop ontologySize (args0.Get "obligations").elems).obs
    else []
  else []

/-! ## `EnforceRequest` (pm.cc:111-629) -/

/-- The request of `new Request(*subject_attrs, *resource_attrs, purpose, obs,
*environment_attrs)` (pm.cc:607, 619) for the first argument `args0`. -/
def buildRequest (ontologySize : Nat) (args0 : JSValue) : Request :=
  { subject_attrs := subjectAttrs args0,
    resource_attrs := resourceAttrs args0,
    purpose := purposeVector ontologySize args0,
    obs := obligationList ontologySize args0,
    environment_attrs := environmentAttrs args0 }

/-- Modelled from the spec: the decision engine `PolicyManager` of
core/policymanager/PolicyManager.h, which is not part of this file; an engine is
created from a policy file name and an identity seed (§3, §4.5). -/
structure PolicyManager where
  policyFileName : String
  pip : List (String × List String)

/-- The fields of a `PolicyManagerInt` object.  `pminst` is `none` when the
engine it pointed to has been deleted. -/
structure Session where
  m_count : Nat
  pminst : Option PolicyManager
  policyFileName : String

/-- What a call of `EnforceRequest` that does not throw leaves behind: the
session, the request handed to `checkRequest`, the returned integer, and the
string stored in `args[1].path` when a second object argument was given. -/
structure Enforced where
  session : Session
  request : Request
  result : Nat
  path : Option String

/-- The method `EnforceRequest` (pm.cc:111-629).  `checkRequest` is the decision
of the engine (its effect and its diagnostic path), which is outside this file.
A thrown `TypeError` is `Except.error` with its message.  A call on a session
whose engine has been deleted would dereference a dangling pointer; it has no
defined result and is an `Except.error` as well. -/
def EnforceRequest (ontologySize : Nat)
    (checkRequest : PolicyManager → Request → Effect × String)
    (self : Session) (args : List JSValue) : Except String Enforced :=
  match args with
  | [] => .error "Argument missing"
  | args0 :: rest =>
    if args0.IsObject = false then .error "Bad type argument"
    else
      match self.pminst with
      | none => .error "engine deleted"
      | some pminst =>
        let req := buildRequest ontologySize args0
        let eff := checkRequest pminst req
        .ok { session := { self with m_count := self.m_count + 1 },
              request := req,
              result := eff.1.code,
              path := match rest with
                | args1 :: _ => if args1.IsObject then some eff.2 else none
                | [] => none }

/-! ## Runs that die (pm.cc:156-604)

`JSValue.Has`, `JSValue.Get` and `JSValue.elems` give the result of the v8 calls on
the values on which these calls are defined.  The source also makes them where
they are not: `ToObject()` of null or undefined is an empty handle, and the
`->Has` that follows kills the process; `Array::Cast` of a value that is not an
array followed by `Length()` has no defined result.  This section says on which
inputs a call gets there.  On every other input the definitions above are what
the call computes. -/

/-- How a call of a method ends: the process dies, the call throws a `TypeError`
with a message, or it returns. -/
inductive Outcome (α : Type) where
  | died
  | threw (msg : String)
  | returned (a : α)

/-- The values whose `ToObject()` is an empty handle. -/
def JSValue.IsNullOrUndefined : JSValue → Bool
  | .undefined => true
  | .null => true
  | _ => false

/-- A group that is present with the value null or undefined: the first
`ToObject()->Has` on it (pm.cc:158, 182, 211, 260, 584) kills the process. -/
def groupFault (args0 : JSValue) (group : String) : Bool :=
  args0.Has group && (args0.Get group).IsNullOrUndefined

/-- The places where one iteration of the trigger loop kills the process: the
trigger is null or undefined (pm.cc:400), or it is a
`TriggerPersonalDataAccessedForPurpose` trigger whose `purpose` is cast to an
array without being one (pm.cc:440-443). -/
def triggerFault (triggerTmp : JSValue) : Bool :=
  triggerTmp.IsNullOrUndefined ||
  (triggerTmp.Has triggerIdTag &&
    (triggerTmp.Get triggerIdTag).AsciiValue == triggerPersonalDataAccessedTag &&
    triggerTmp.Has purposeTag && !(triggerTmp.Get purposeTag).IsArray)

/-- One iteration of the trigger loop (pm.cc:399-532); `none` when the process
has died. -/
def triggerStepRun (ontologySize : Nat) (st : Option TriggerState) (triggerTmp : JSValue) :
    Option TriggerState :=
  match st with
  | none => none
  | some st =>
    if triggerFault triggerTmp then none else some (triggerStep ontologySize st triggerTmp)

/-- One iteration of the obligation loop (pm.cc:336-553); `none` when the process
has died: the element is null or undefined (pm.cc:337), its `action` is null or
undefined (pm.cc:340), or control reaches the trigger loop and the process dies
there. -/
def obligationStepRun (ontologySize : Nat) (st : Option ObligationState) (obElem : JSValue) :
    Option ObligationState :=
  match st with
  | none => none
  | some st =>
    if obElem.IsNullOrUndefined then none
    else if obElem.Has "action" && (obElem.Get "action").IsNullOrUndefined then none
    else if (actionStep st.action obElem).2 && obElem.Has "triggers" &&
        (obElem.Get "triggers").IsArray &&
        ((obElem.Get "triggers").elems.foldl (triggerStepRun ontologySize)
          (some { trigger := st.trigger, triggers := st.triggers })).isNone then none
    else some (obligationStep ontologySize st obElem)

/-- The vector `obs` after pm.cc:324-558; `none` when the process has died. -/
def obligationListRun (ontologySize : Nat) (args0 : JSValue) : Option (List obligation) :=
  if args0.Has "obligations" then
    if (args0.Get "obligations").IsArray then
      ((args0.Get "obligations").elems.foldl (obligationStepRun ontologySize)
        (some ObligationState.init)).map (fun st => st.obs)
    else some []
  else some []

/-- The request built by pm.cc:125-604 for the first argument `args0`; `none`
when the process has died before. -/
def buildRequestRun (ontologySize : Nat) (args0 : JSValue) : Option Request :=
  if groupFault args0 "resourceInfo" || groupFault args0 "subjectInfo" ||
      groupFault args0 "widgetInfo" || groupFault args0 "deviceInfo" ||
      groupFault args0 "environmentInfo" then none
  else
    match obligationListRun ontologySize args0 with
    | none => none
    | some obs =>
      some { subject_attrs := subjectAttrs args0,
             resource_attrs := resourceAttrs args0,
             purpose := purposeVector ontologySize args0,
             obs := obs,
             environment_attrs := environmentAttrs args0 }

/-- The method `EnforceRequest` (pm.cc:111-629) with the runs that die: on an
input that reaches an empty handle or an unchecked cast, and on a session whose
engine has been deleted (the call goes through a dangling pointer). -/
def EnforceRequestRun (ontologySize : Nat)
    (checkRequest : PolicyManager → Request → Effect × String)
    (self : Session) (args : List JSValue) : Outcome Enforced :=
  match args with
  | [] => .threw "Argument missing"
  | args0 :: rest =>
    if args0.IsObject = false then .threw "Bad type argument"
    else
      match buildRequestRun ontologySize args0 with
      | none => .died
      | some req =>
        match self.pminst with
        | none => .died
        | some pminst =>
          .returned { session := { self with m_count := self.m_count + 1 },
                      request := req,
                      result := (checkRequest pminst req).1.code,
                      path := match rest with
                        | args1 :: _ => if args1.IsObject then some (checkRequest pminst req).2
                                        else none
                        | [] => none }

/-! ## The obligation grammar in the words of the specification

These definitions follow §3 and §4.3 of the specification, element by element
and without any loop state; the theorems below compare them with the loops of
`EnforceRequest`. -/

/-- The `actionID` string of an element of the `obligations` array. -/
def specActionID (e : JSValue) : String :=
  ((e.Get "action").Get actionIdTag).AsciiValue

/-- Spec §4.3 steps 1-2: the element has an `action` with an `actionID` of a
recognized kind and, for `ActionNotifyDataSubject`, both `media` and `address`. -/
def specValidAction (e : JSValue) : Bool :=
  e.Has "action" && (e.Get "action").Has actionIdTag &&
    ((specActionID e == actionNotifyTag &&
        (e.Get "action").Has mediaTag && (e.Get "action").Has addressTag) ||
      specActionID e == actionDeleteTag || specActionID e == actionAnonymizeTag ||
      specActionID e == actionLogTag || specActionID e == actionSecureLogTag)

/-- Spec §4.3 step 4: the purpose vector of a trigger as a string of the
characters 0 and 1, one per element of the array. -/
def specPurposeBits (pTmp : JSValue) : String :=
  String.mk (pTmp.elems.map (fun v => if v.BooleanValue then '1' else '0'))

/-- Spec §3 and §4.3 step 4: the validated form of one trigger, or `none` when
the trigger has no `triggerID`, a `triggerID` outside the closed set, or lacks a
field its kind requires. -/
def specTrigger (ontologySize : Nat) (t : JSValue) : Option (List (String × String)) :=
  if t.Has triggerIdTag = false then none
  else if (t.Get triggerIdTag).AsciiValue = triggerAtTimeTag then
    if t.Has startTag = true ∧ t.Has maxDelayTag = true then
      some [(triggerIdTag, (t.Get triggerIdTag).AsciiValue),
            (startTag, (t.Get startTag).AsciiValue),
            (maxDelayTag, (t.Get maxDelayTag).AsciiValue)]
    else none
  else if (t.Get triggerIdTag).AsciiValue = triggerPersonalDataAccessedTag then
    if t.Has purposeTag = true ∧ (t.Get purposeTag).Length = ontologySize ∧
        t.Has maxDelayTag = true then
      some [(triggerIdTag, (t.Get triggerIdTag).AsciiValue),
            (purposeTag, specPurposeBits (t.Get purposeTag)),
            (maxDelayTag, (t.Get maxDelayTag).AsciiValue)]
    else none
  else if (t.Get triggerIdTag).AsciiValue = triggerPersonalDataDeletedTag then
    if t.Has maxDelayTag = true then
      some [(triggerIdTag, (t.Get triggerIdTag).AsciiValue),
            (maxDelayTag, (t.Get maxDelayTag).AsciiValue)]
    else none
  else if (t.Get triggerIdTag).AsciiValue = triggerDataSubjectAccessTag then
    if t.Has uriTag = true then
      some [(triggerIdTag, (t.Get triggerIdTag).AsciiValue),
            (uriTag, (t.Get uriTag).AsciiValue)]
    else none
  else none

/-- Spec §4.3 steps 3-4: the individually valid triggers of an element, in input
order; none when `triggers` is missing or is not an array. -/
def specTriggers (ontologySize : Nat) (e : JSValue) : List (List (String × String)) :=
  if e.Has "triggers" = true ∧ (e.Get "triggers").IsArray = true then
    (e.Get "triggers").elems.filterMap (specTrigger ontologySize)
  else []

/-- Spec §4.3 step 5: the element is included iff its action is valid and it has
at least one valid trigger. -/
def specIncluded (ontologySize : Nat) (e : JSValue) : Bool :=
  specValidAction e && !(specTriggers ontologySize e).isEmpty

/-- Spec §3 (Action): the kind-specific contract of an action map. -/
def actionContract (a : List (String × String)) : Bool :=
  match mapFind a actionIdTag with
  | none => false
  | some id =>
    (id == actionNotifyTag && (mapFind a mediaTag).isSome && (mapFind a addressTag).isSome) ||
    id == actionDeleteTag || id == actionAnonymizeTag ||
    id == actionLogTag || id == actionSecureLogTag

/-- Spec §3 (Trigger): the kind-specific contract of a trigger map. -/
def triggerContract (t : List (String × String)) : Bool :=
  match mapFind t triggerIdTag with
  | none => false
  | some id =>
    (id == triggerAtTimeTag && (mapFind t startTag).isSome && (mapFind t maxDelayTag).isSome) ||
    (id == triggerPersonalDataAccessedTag && (mapFind t purposeTag).isSome &&
      (mapFind t maxDelayTag).isSome) ||
    (id == triggerPersonalDataDeletedTag && (mapFind t maxDelayTag).isSome) ||
    (id == triggerDataSubjectAccessTag && (mapFind t uriTag).isSome)

/-- Spec §3 (Obligation): a valid action, at least one trigger, every trigger
valid. -/
def obligationContract (o : obligation) : Bool :=
  actionContract o.action && !o.triggers.isEmpty && o.triggers.all triggerContract

/-! ## Sample inputs -/

/-- A complete notify obligation that has no `triggers`. -/
def notifyWithoutTriggers : JSValue :=
  .object [("action", .object [("actionID", .string "ActionNotifyDataSubject"),
                               ("media", .string "sms"),
                               ("address", .string "dpo@example.org")])]

/-- A delete obligation with one valid trigger. -/
def deleteOnDeletion : JSValue :=
  .object [("action", .object [("actionID", .string "ActionDelete")]),
           ("triggers", .array [
             .object [("triggerID", .string "TriggerPersonalDataDeleted"),
                      ("maxDelay", .string "10")]])]

/-- An input with the notify obligation that has no `triggers`, followed by the
delete obligation. -/
def staleActionInput : JSValue :=
  .object [("obligations", .array [notifyWithoutTriggers, deleteOnDeletion])]

/-- An input whose `purpose` is an array of three booleans. -/
def booleanPurposeInput : JSValue :=
  .object [("purpose", .array [.bool true, .bool false, .bool true])]

/-- An input whose `purpose` array has one element. -/
def shortPurposeInput : JSValue :=
  .object [("purpose", .array [.bool true])]

/-- A notify obligation without `address`, with a valid trigger. -/
def notifyWithoutAddress : JSValue :=
  .object [("action", .object [("actionID", .string "ActionNotifyDataSubject"),
                               ("media", .string "sms")]),
           ("triggers", .array [
             .object [("triggerID", .string "TriggerPersonalDataDeleted"),
                      ("maxDelay", .string "10")]])]

/-- An input with the incomplete notify obligation followed by the delete
obligation. -/
def incompleteNotifyInput : JSValue :=
  .object [("obligations", .array [notifyWithoutAddress, deleteOnDeletion])]

/-- A session with a live engine. -/
def sampleSession : Session :=
  { m_count := 0, pminst := some { policyFileName := "policy.xml", pip := [] },
    policyFileName := "policy.xml" }

/-- An engine decision that permits every request. -/
def permitAll : PolicyManager → Request → Effect × String :=
  fun _ _ => (Effect.PERMIT, "")

/-! ## Session lifecycle (pm.cc:58-109, 634-688) -/

/-- The v8 test `IsString()`. -/
def JSValue.IsString : JSValue → Bool
  | .string _ => true
  | _ => false

/-- The key of the owner id in the identity seed and in the map `pip`. -/
def ownerIdKey : String := "http://webinos.org/subject/id/PZ-Owner"

/-- The key of the known ids in the identity seed and in the map `pip`. -/
def knownIdKey : String := "http://webinos.org/subject/id/known"

/-- The map `pip` right after its creation (pm.cc:62-64, 643-645). -/
def pip_init : List (String × List String) :=
  [(ownerIdKey, []), (knownIdKey, [])]

/-- The block on the owner id (pm.cc:82-85, 652-655). -/
def ownerSeed (seed : JSValue) (pip : List (String × List String)) :
    List (String × List String) :=
  if seed.Has ownerIdKey then
    mapPushBack pip ownerIdKey (seed.Get ownerIdKey).AsciiValue
  else pip

/-- The map `pip` built by `New` from its second argument (pm.cc:82-99): the
loop over `knownList` pushes every element. -/
def newSeed (seed : JSValue) : List (String × List String) :=
  let pip := ownerSeed seed pip_init
  if seed.Has knownIdKey then
    let knownList := seed.Get knownIdKey
    knownList.elems.foldl (fun pip knownId => mapPushBack pip knownIdKey knownId.AsciiValue) pip
  else pip

/-- The known ids of a seed are cast to an array without `IsArray()` (pm.cc:88,
658): on a seed whose known ids are not an array, `Length()` has no defined
result and the process dies. -/
def seedFault (seed : JSValue) : Bool :=
  seed.Has knownIdKey && !(seed.Get knownIdKey).IsArray

/-- The constructor `New` (pm.cc:58-109).  `engineOutcome` is how
`new PolicyManager(policyFileName, pip)`, whose code is outside this file, ends;
when it does not return, neither does `New`. -/
def New (engineOutcome : String → List (String × List String) → Outcome Unit)
    (args : List JSValue) : Outcome Session :=
  match args with
  | args0 :: args1 :: _ =>
    if args0.IsString = false then .threw "Bad type argument"
    else if args1.IsObject = false then .threw "Bad type argument"
    else if seedFault args1 then .died
    else
      match engineOutcome args0.AsciiValue (newSeed args1) with
      | .returned _ =>
        .returned { m_count := 0,
                    pminst := some { policyFileName := args0.AsciiValue, pip := newSeed args1 },
                    policyFileName := args0.AsciiValue }
      | .threw msg => .threw msg
      | .died => .died
  | _ => .threw "Missing argument"

/-- The statement `for (i=0; i < knownList->Length(); i++);` of pm.cc:660, whose
body is the empty statement: the value of `i` when the loop ends.  The first
argument counts the iterations left. -/
def knownIndexLoop (length : Nat) : Nat → Nat → Nat
  | 0, i => i
  | left + 1, i => if i < length then knownIndexLoop length left (i + 1) else i

/-- The map `pip` built by `ReloadPolicy` from its argument (pm.cc:652-665): the
block after the loop statement runs once, with the final value of `i`. -/
def reloadSeed (seed : JSValue) : List (String × List String) :=
  let pip := ownerSeed seed pip_init
  if seed.Has knownIdKey then
    let knownList := seed.Get knownIdKey
    let i := knownIndexLoop knownList.Length knownList.Length 0
    mapPushBack pip knownIdKey (knownList.GetIndex i).AsciiValue
  else pip

/-- The method `ReloadPolicy` (pm.cc:634-677): the session it leaves behind and
its result, the returned integer or the message of the thrown `TypeError`.  The
engine is deleted (pm.cc:641) before the argument is looked at.  On a session
whose engine has already been deleted the `delete` has no defined result; this
is an `Except.error` that leaves the session as it is. -/
def ReloadPolicy (self : Session) (args : List JSValue) : Session × Except String Nat :=
  match self.pminst with
  | none => (self, .error "engine deleted")
  | some _ =>
    match args with
    | args0 :: _ =>
      if args0.IsObject = false then
        ({ self with pminst := none }, .error "Bad type argument")
      else
        ({ self with
            pminst := some { policyFileName := self.policyFileName, pip := reloadSeed args0 } },
         .ok 0)
    | [] => ({ self with pminst := none }, .error "Missing argument")

/-- The method `ReloadPolicy` (pm.cc:634-677) with the runs that die: on a
session whose engine has already been deleted (second `delete` of the same
pointer) and on a seed whose known ids are not an array.  `engineOutcome` is how
the constructor of the new engine ends. -/
def ReloadPolicyRun (engineOutcome : String → List (String × List String) → Outcome Unit)
    (self : Session) (args : List JSValue) : Outcome Nat :=
  match self.pminst with
  | none => .died
  | some _ =>
    match args with
    | args0 :: _ =>
      if args0.IsObject = false then .threw "Bad type argument"
      else if seedFault args0 then .died
      else
        match engineOutcome self.policyFileName (reloadSeed args0) with
        | .returned _ => .returned 0
        | .threw msg => .threw msg
        | .died => .died
    | [] => .threw "Missing argument"

/-- The method `GetPolicyFilename` (pm.cc:680-688): `policyFileName.c_str()`,
which `String::New` turns into a JavaScript string; on ASCII characters that
string has the characters of the C string. -/
def GetPolicyFilename (self : Session) : String := cString self.policyFileName

/-! ## The attribute catalog in the words of the specification (§6) -/

/-- Spec §6: the fields that feed the Subject attribute set, as
(group, field, category). -/
def subjectCatalog : List (String × String × String) :=
  [("subjectInfo", "userId", "user-id"),
   ("subjectInfo", "userKeyCn", "user-key-cn"),
   ("subjectInfo", "userKeyFingerprint", "user-key-fingerprint"),
   ("subjectInfo", "userKeyRootCn", "user-key-root-cn"),
   ("subjectInfo", "userKeyRootFingerprint", "user-key-root-fingerprint"),
   ("widgetInfo", "id", "id"),
   ("widgetInfo", "distributorKeyCn", "distributor-key-cn"),
   ("widgetInfo", "distributorKeyFingerprint", "distributor-key-fingerprint"),
   ("widgetInfo", "distributorKeyRootCn", "distributor-key-root-cn"),
   ("widgetInfo", "distributorKeyRootFingerprint", "distributor-key-root-fingerprint"),
   ("widgetInfo", "authorKeyCn", "author-key-cn"),
   ("widgetInfo", "authorKeyFingerprint", "author-key-fingerprint"),
   ("widgetInfo", "authorKeyRootCn", "author-key-root-cn"),
   ("widgetInfo", "authorKeyRootFingerprint", "author-key-root-fingerprint"),
   ("deviceInfo", "targetId", "target-id"),
   ("deviceInfo", "targetDomain", "target-domain"),
   ("deviceInfo", "requestorId", "requestor-id"),
   ("deviceInfo", "requestorDomain", "requestor-domain"),
   ("deviceInfo", "webinosEnabled", "webinos-enabled")]

/-- Spec §6: the fields that feed the Resource attribute set. -/
def resourceCatalog : List (String × String × String) :=
  [("resourceInfo", "deviceCap", "device-cap"),
   ("resourceInfo", "apiFeature", "api-feature"),
   ("resourceInfo", "serviceId", "service-id"),
   ("resourceInfo", "paramFeature", "param:feature")]

/-- Spec §6: the fields that feed the Environment attribute set. -/
def environmentCatalog : List (String × String × String) :=
  [("environmentInfo", "profile", "profile"),
   ("environmentInfo", "timemin", "timemin"),
   ("environmentInfo", "days-of-week", "days-of-week"),
   ("environmentInfo", "days-of-month", "days-of-month")]

/-- Whether the input has the field of a catalog entry (its group and, inside the
group, the field). -/
def hasCatalogField (args0 : JSValue) (e : String × String × String) : Bool :=
  args0.Has e.1 && (args0.Get e.1).Has e.2.1

/-- The value of the field of a catalog entry in the input. -/
def catalogField (args0 : JSValue) (e : String × String × String) : JSValue :=
  (args0.Get e.1).Get e.2.1

/-! ## Inputs that differ only in unknown keys -/

/-- Two values agree on a key: both have it or both lack it, and it reads the
same value. -/
def agreeOn (a b : JSValue) (k : String) : Prop :=
  a.Has k = b.Has k ∧ a.Get k = b.Get k

/-- Two inputs agree on a group of the catalog: on its presence and on each of
its fields. -/
def agreeGroup (a b : JSValue) (g : String) (fields : List String) : Prop :=
  a.Has g = b.Has g ∧ ∀ f ∈ fields, agreeOn (a.Get g) (b.Get g) f

/-- Two triggers agree on the recognized fields of a trigger. -/
def agreeTrigger (s t : JSValue) : Prop :=
  ∀ f ∈ [triggerIdTag, startTag, maxDelayTag, purposeTag, uriTag], agreeOn s t f

/-- Two elements of `obligations` agree on their recognized content: the fields
of the action, and the triggers one by one. -/
def agreeObligation (x y : JSValue) : Prop :=
  x.Has "action" = y.Has "action" ∧
  (∀ f ∈ [actionIdTag, mediaTag, addressTag], agreeOn (x.Get "action") (y.Get "action") f) ∧
  x.Has "triggers" = y.Has "triggers" ∧
  (x.Get "triggers").IsArray = (y.Get "triggers").IsArray ∧
  List.Forall₂ agreeTrigger (x.Get "triggers").elems (y.Get "triggers").elems

/-- Two inputs agree on every recognized group and field, on `purpose` and on
the recognized content of `obligations`; they may differ in any other key. -/
def agreeInput (a b : JSValue) : Prop :=
  agreeGroup a b "resourceInfo" ["deviceCap", "apiFeature", "serviceId", "paramFeature"] ∧
  agreeGroup a b "subjectInfo"
    ["userId", "userKeyCn", "userKeyFingerprint", "userKeyRootCn", "userKeyRootFingerprint"] ∧
  agreeGroup a b "widgetInfo"
    ["id", "distributorKeyCn", "distributorKeyFingerprint", "distributorKeyRootCn",
     "distributorKeyRootFingerprint", "authorKeyCn", "authorKeyFingerprint",
     "authorKeyRootCn", "authorKeyRootFingerprint"] ∧
  agreeGroup a b "deviceInfo"
    ["targetId", "targetDomain", "requestorId", "requestorDomain", "webinosEnabled"] ∧
  agreeGroup a b "environmentInfo" ["profile", "timemin", "days-of-week", "days-of-month"] ∧
  agreeOn a b "purpose" ∧
  a.Has "obligations" = b.Has "obligations" ∧
  (a.Get "obligations").IsArray = (b.Get "obligations").IsArray ∧
  List.Forall₂ agreeObligation (a.Get "obligations").elems (b.Get "obligations").elems

/-! ## Values that are ASCII strings -/

/-- The string held by a string value. -/
def JSValue.stringValue : JSValue → Option String
  | .string s => some s
  | _ => none

/-- The string consists of ASCII characters other than NUL. -/
def asciiText (s : String) : Bool :=
  s.data.all (fun c => decide (0 < c.toNat) && decide (c.toNat < 128))

/-- A string value that consists of ASCII characters other than NUL. -/
def JSValue.IsAsciiText : JSValue → Bool
  | .string s => asciiText s
  | _ => false

/-! ## More sample inputs -/

/-- The input of the end-to-end example of spec §8. -/
def aliceInput : JSValue :=
  .object [("subjectInfo", .object [("userId", .string "alice")]),
           ("resourceInfo", .object [("apiFeature", .string "geolocation")])]

/-- The input `aliceInput` with keys outside the catalog added at the top level
and inside `subjectInfo`. -/
def aliceInputWithExtras : JSValue :=
  .object [("comment", .string "ignored"),
           ("subjectInfo", .object [("nickname", .string "al"), ("userId", .string "alice")]),
           ("resourceInfo", .object [("apiFeature", .string "geolocation")])]

/-- An input with every field of the catalog present with a string value; the
value of `userId` is the parameter. -/
def catalogInput (userId : String) : JSValue :=
  .object [
    ("resourceInfo", .object [
      ("deviceCap", .string "camera"), ("apiFeature", .string "geolocation"),
      ("serviceId", .string "s1"), ("paramFeature", .string "p1")]),
    ("subjectInfo", .object [
      ("userId", .string userId), ("userKeyCn", .string "u1"),
      ("userKeyFingerprint", .string "u2"), ("userKeyRootCn", .string "u3"),
      ("userKeyRootFingerprint", .string "u4")]),
    ("widgetInfo", .object [
      ("id", .string "w0"), ("distributorKeyCn", .string "d1"),
      ("distributorKeyFingerprint", .string "d2"), ("distributorKeyRootCn", .string "d3"),
      ("distributorKeyRootFingerprint", .string "d4"), ("authorKeyCn", .string "a1"),
      ("authorKeyFingerprint", .string "a2"), ("authorKeyRootCn", .string "a3"),
      ("authorKeyRootFingerprint", .string "a4")]),
    ("deviceInfo", .object [
      ("targetId", .string "t1"), ("targetDomain", .string "t2"),
      ("requestorId", .string "r1"), ("requestorDomain", .string "r2"),
      ("webinosEnabled", .string "true")]),
    ("environmentInfo", .object [
      ("profile", .string "home"), ("timemin", .string "600"),
      ("days-of-week", .string "mon"), ("days-of-month", .string "1")])]

/-- A three-character string whose second character is NUL. -/
def nulString : String := String.mk ['a', Char.ofNat 0, 'b']

/-- The one-character string U+4E2D, a character outside ASCII whose UTF-16
code unit 0x4E2D has the low byte 0x2D, the character `-`. -/
def hanString : String := String.mk [Char.ofNat 20013]

/-- An identity seed with an owner and two known ids. -/
def sampleSeed : JSValue :=
  .object [(ownerIdKey, .string "owner"),
           (knownIdKey, .array [.string "alice", .string "bob"])]

/-- A `TriggerPersonalDataAccessedForPurpose` trigger with `maxDelay` and a
purpose array of three booleans. -/
def purposeTrigger : JSValue :=
  .object [("triggerID", .string "TriggerPersonalDataAccessedForPurpose"),
           ("purpose", .array [.bool true, .bool false, .bool true]),
           ("maxDelay", .string "30")]

/-- The same kind of trigger with a purpose array of two elements. -/
def shortPurposeTrigger : JSValue :=
  .object [("triggerID", .string "TriggerPersonalDataAccessedForPurpose"),
           ("purpose", .array [.bool true, .bool false]),
           ("maxDelay", .string "30")]

/-- A valid `TriggerPersonalDataDeleted` trigger. -/
def deletedTrigger : JSValue :=
  .object [("triggerID", .string "TriggerPersonalDataDeleted"), ("maxDelay", .string "10")]

/-- An input whose `purpose` array has three elements, none of them a boolean. -/
def mixedPurposeInput : JSValue :=
  .object [("purpose", .array [.number 1, .string "", .null])]

/-- An input whose `environmentInfo` has the field `profile` only. -/
def profileInput : JSValue :=
  .object [("environmentInfo", .object [("profile", .string "home")])]


/-! ## Sample inputs of runs that die -/

/-- An input whose only obligation is null. -/
def nullObligationInput : JSValue :=
  .object [("obligations", .array [.null])]

/-- An input whose `subjectInfo` is null. -/
def nullSubjectInput : JSValue :=
  .object [("subjectInfo", .null)]

/-- The input `nullSubjectInput` with a key outside the catalog added. -/
def nullSubjectInputWithExtra : JSValue :=
  .object [("subjectInfo", .null), ("x", .number 1)]

/-- An input with a delete obligation whose trigger has the number 3 as `purpose`. -/
def numberPurposeInput : JSValue :=
  .object [("obligations", .array [
    .object [("action", .object [("actionID", .string "ActionDelete")]),
             ("triggers", .array [
               .object [("triggerID", .string "TriggerPersonalDataAccessedForPurpose"),
                        ("purpose", .number 3), ("maxDelay", .string "30")]])]])]

/-- An identity seed whose known ids are the number 3. -/
def numberKnownSeed : JSValue :=
  .object [(knownIdKey, .number 3)]

/-- An input whose `environmentInfo` has `nulString` as `profile`. -/
def nulProfileInput : JSValue :=
  .object [("environmentInfo", .object [("profile", .string nulString)])]

/-- An input whose `environmentInfo` has `hanString` as `profile`. -/
def hanProfileInput : JSValue :=
  .object [("environmentInfo", .object [("profile", .string hanString)])]

/-- An engine constructor that always returns. -/
def engineReturns : String → List (String × List String) → Outcome Unit :=
  fun _ _ => Outcome.returned ()

/-! ## Lemmas on maps and on the purpose loops -/

theorem mapSet_ne_nil {β : Type} (m : List (String × β)) (k : String) (v : β) :
    mapSet m k v ≠ [] := by
  cases m with
  | nil => simp [mapSet]
  | cons p r =>
    unfold mapSet
    split <;> simp

theorem mapFind_mapSet_self {β : Type} (m : List (String × β)) (k : String) (v : β) :
    mapFind (mapSet m k v) k = some v := by
  induction m with
  | nil => simp [mapSet, mapFind]
  | cons p r ih =>
    unfold mapSet
    by_cases h : p.1 = k
    · simp [h, mapFind]
    · simp [h, mapFind, ih]

theorem mapFind_mapSet_of_ne {β : Type} (m : List (String × β)) (k k' : String) (v : β)
    (hne : k' ≠ k) : mapFind (mapSet m k v) k' = mapFind m k' := by
  induction m with
  | nil => simp [mapSet, mapFind, Ne.symm hne]
  | cons p r ih =>
    unfold mapSet
    by_cases h : p.1 = k
    · have h' : ¬ p.1 = k' := fun e => hne (e.symm.trans h)
      simp [h, mapFind, h', Ne.symm hne]
    · by_cases h' : p.1 = k'
      · rw [if_neg h]
        simp [mapFind, h']
      · rw [if_neg h]
        simp [mapFind, h', ih]

theorem map_getD_range {α β : Type} (l : List α) (d : α) (f : α → β) :
    (List.range' 0 l.length).map (fun j => f (l.getD j d)) = l.map f := by
  apply List.ext_getElem
  · simp
  · intro j h1 h2
    simp at h1
    simp [List.getD_eq_getElem?_getD, List.getElem?_eq_getElem h1]

theorem purposeLoop_eq (pTmp : JSValue) (left i : Nat) (acc : List Bool) :
    purposeLoop pTmp left i acc =
      acc ++ (List.range' i left).map (fun j => (pTmp.GetIndex j).BooleanValue) := by
  induction left generalizing i acc with
  | zero => simp [purposeLoop]
  | succ left ih =>
    unfold purposeLoop
    cases hb : (pTmp.GetIndex i).BooleanValue <;>
      simp [ih, List.range'_succ, hb]

theorem purposeLoop_full (pTmp : JSValue) :
    purposeLoop pTmp pTmp.Length 0 [] = pTmp.elems.map JSValue.BooleanValue := by
  rw [purposeLoop_eq]
  simpa [JSValue.Length, JSValue.GetIndex] using
    map_getD_range pTmp.elems JSValue.undefined JSValue.BooleanValue

theorem triggerPurposeLoop_snd (pTmp : JSValue) (left k : Nat)
    (st : List Char × List (String × String)) :
    (triggerPurposeLoop pTmp left k st).2 = st.2 := by
  induction left generalizing k st with
  | zero => simp [triggerPurposeLoop]
  | succ left ih =>
    unfold triggerPurposeLoop
    cases hb : (pTmp.GetIndex k).BooleanValue <;> simp [ih]

theorem triggerPurposeLoop_getElem? (pTmp : JSValue) (left k : Nat)
    (st : List Char × List (String × String)) (j : Nat) :
    (triggerPurposeLoop pTmp left k st).1[j]? =
      if k ≤ j ∧ j < k + left then
        (st.1[j]?).map (fun _ => if (pTmp.GetIndex j).BooleanValue then '1' else '0')
      else st.1[j]? := by
  induction left generalizing k st with
  | zero =>
    have : ¬ (k ≤ j ∧ j < k + 0) := by omega
    rw [if_neg this]
    simp [triggerPurposeLoop]
  | succ left ih =>
    unfold triggerPurposeLoop
    cases hb : (pTmp.GetIndex k).BooleanValue
    · simp only [Bool.false_eq_true, if_false, if_true, ih, List.getElem?_set]
      by_cases h1 : k = j
      · subst h1
        by_cases h2 : k < st.1.length
        · simp [h2, hb]
        · have : st.1[k]? = none := by simp; omega
          simp [h2, this]
      · by_cases h3 : k + 1 ≤ j ∧ j < k + 1 + left
        · have : k ≤ j ∧ j < k + (left + 1) := by omega
          simp [h1, h3, this]
        · have : ¬ (k ≤ j ∧ j < k + (left + 1)) := by omega
          simp [h1, h3, this]
    · simp only [if_true, ih, List.getElem?_set]
      by_cases h1 : k = j
      · subst h1
        by_cases h2 : k < st.1.length
        · simp [h2, hb]
        · have : st.1[k]? = none := by simp; omega
          simp [h2, this]
      · by_cases h3 : k + 1 ≤ j ∧ j < k + 1 + left
        · have : k ≤ j ∧ j < k + (left + 1) := by omega
          simp [h1, h3, this]
        · have : ¬ (k ≤ j ∧ j < k + (left + 1)) := by omega
          simp [h1, h3, this]

theorem triggerPurposeLoop_full (pTmp : JSValue) (trigger : List (String × String)) :
    triggerPurposeLoop pTmp pTmp.Length 0 (List.replicate pTmp.Length '0', trigger) =
      ((specPurposeBits pTmp).data, trigger) := by
  apply Prod.ext
  · apply List.ext_getElem?
    intro j
    rw [triggerPurposeLoop_getElem?]
    simp only [specPurposeBits, List.getElem?_map, JSValue.Length, JSValue.GetIndex]
    by_cases h : j < pTmp.elems.length
    · simp [h, List.getElem?_replicate, List.getD_eq_getElem?_getD, List.getElem?_eq_getElem h]
    · have : pTmp.elems[j]? = none := by simp; omega
      simp [h, List.getElem?_replicate, this]
  · simp [triggerPurposeLoop_snd]

/-! ## The trigger loop computes the valid triggers of the specification -/

theorem triggerTags_ne :
    triggerIdTag ≠ startTag ∧ triggerIdTag ≠ maxDelayTag ∧ triggerIdTag ≠ purposeTag ∧
    triggerIdTag ≠ uriTag ∧ startTag ≠ maxDelayTag ∧ purposeTag ≠ maxDelayTag := by
  decide

theorem triggerFields_eq_specTrigger (n : Nat) (t : JSValue)
    (hid : t.Has triggerIdTag = true) :
    triggerFields n t (t.Get triggerIdTag).AsciiValue
        (mapSet [] triggerIdTag (t.Get triggerIdTag).AsciiValue) = specTrigger n t := by
  obtain ⟨e1, e2, e3, e4, e5, e6⟩ := triggerTags_ne
  unfold triggerFields specTrigger
  simp only [hid, Bool.true_eq_false, if_false]
  by_cases h1 : (t.Get triggerIdTag).AsciiValue = triggerAtTimeTag
  · simp only [h1, if_true]
    by_cases hs : t.Has startTag = true <;> by_cases hm : t.Has maxDelayTag = true <;>
      simp [hs, hm, mapSet, e1, e2, e5]
  · simp only [h1, if_false]
    by_cases h2 : (t.Get triggerIdTag).AsciiValue = triggerPersonalDataAccessedTag
    · simp only [h2, if_true]
      by_cases hp : t.Has purposeTag = true
      · by_cases hl : (t.Get purposeTag).Length = n
        · subst hl
          by_cases hm : t.Has maxDelayTag = true
          · simp [hp, hm, triggerPurposeLoop_full, mapSet, e2, e3, e6]
          · simp [hp, hm]
        · simp [hp, hl]
      · simp [hp]
    · simp only [h2, if_false]
      by_cases h3 : (t.Get triggerIdTag).AsciiValue = triggerPersonalDataDeletedTag
      · simp only [h3, if_true]
        by_cases hm : t.Has maxDelayTag = true <;>
          simp [hm, mapSet, e2]
      · simp only [h3, if_false]
        by_cases h4 : (t.Get triggerIdTag).AsciiValue = triggerDataSubjectAccessTag
        · simp only [h4, if_true]
          by_cases hu : t.Has uriTag = true <;>
            simp [hu, mapSet, e4]
        · simp [h4]

theorem specTrigger_of_not_has (n : Nat) (t : JSValue) (hid : t.Has triggerIdTag = false) :
    specTrigger n t = none := by
  simp [specTrigger, hid]

theorem triggerStep_clean (n : Nat) (acc : List (List (String × String))) (t : JSValue) :
    triggerStep n { trigger := [], triggers := acc } t =
      { trigger := [], triggers := acc ++ (specTrigger n t).toList } := by
  unfold triggerStep
  by_cases hid : t.Has triggerIdTag = true
  · simp only [hid, if_true]
    rw [triggerFields_eq_specTrigger n t hid]
    cases specTrigger n t <;> simp
  · have hid' : t.Has triggerIdTag = false := by simpa using hid
    simp [hid', specTrigger_of_not_has n t hid']

theorem triggerLoop_clean (n : Nat) (ts : List JSValue) (acc : List (List (String × String))) :
    ts.foldl (triggerStep n) { trigger := [], triggers := acc } =
      { trigger := [], triggers := acc ++ ts.filterMap (specTrigger n) } := by
  induction ts generalizing acc with
  | nil => simp
  | cons t r ih =>
    rw [List.foldl_cons, triggerStep_clean, ih]
    cases h : specTrigger n t <;> simp [List.filterMap_cons, h]

/-! ## The action part of an iteration -/

theorem actionTags_ne :
    actionIdTag ≠ mediaTag ∧ actionIdTag ≠ addressTag ∧ mediaTag ≠ addressTag ∧
    actionNotifyTag ≠ actionDeleteTag ∧ actionNotifyTag ≠ actionAnonymizeTag ∧
    actionNotifyTag ≠ actionLogTag ∧ actionNotifyTag ≠ actionSecureLogTag := by
  decide

theorem actionStep_snd (a : List (String × String)) (e : JSValue) :
    (actionStep a e).2 = specValidAction e := by
  obtain ⟨_, _, _, d1, d2, d3, d4⟩ := actionTags_ne
  unfold actionStep specValidAction specActionID
  by_cases h1 : e.Has "action" = true
  · by_cases h2 : (e.Get "action").Has actionIdTag = true
    · simp only [h1, h2, if_true, Bool.true_and]
      by_cases h3 : ((e.Get "action").Get actionIdTag).AsciiValue = actionNotifyTag
      · by_cases hm : (e.Get "action").Has mediaTag = true <;>
          by_cases ha : (e.Get "action").Has addressTag = true <;>
          simp [h3, hm, ha, d1, d2, d3, d4]
      · by_cases h4 : ((e.Get "action").Get actionIdTag).AsciiValue = actionDeleteTag
        · simp [h3, h4, Ne.symm d1]
        · by_cases h5 : ((e.Get "action").Get actionIdTag).AsciiValue = actionAnonymizeTag
          · simp [h3, h4, h5, Ne.symm d2]
          · by_cases h6 : ((e.Get "action").Get actionIdTag).AsciiValue = actionLogTag
            · simp [h3, h4, h5, h6, Ne.symm d3]
            · by_cases h7 : ((e.Get "action").Get actionIdTag).AsciiValue = actionSecureLogTag
              · simp [h3, h4, h5, h6, h7, Ne.symm d4]
              · simp [h3, h4, h5, h6, h7]
    · simp [h1, h2]
  · simp [h1]

theorem actionStep_fst_of_reached (a : List (String × String)) (e : JSValue)
    (h : (actionStep a e).2 = true) :
    (actionStep a e).1 ≠ [] ∧
    mapFind (actionStep a e).1 actionIdTag = some (specActionID e) ∧
    actionContract (actionStep a e).1 = true := by
  obtain ⟨e1, e2, e3, d1, d2, d3, d4⟩ := actionTags_ne
  unfold actionStep at h ⊢
  unfold actionContract specActionID
  by_cases h1 : e.Has "action" = true
  · by_cases h2 : (e.Get "action").Has actionIdTag = true
    · simp only [h1, h2, if_true] at h ⊢
      by_cases h3 : ((e.Get "action").Get actionIdTag).AsciiValue = actionNotifyTag
      · by_cases hm : (e.Get "action").Has mediaTag = true
        · by_cases ha : (e.Get "action").Has addressTag = true
          · simp only [h3, hm, ha, if_true]
            refine ⟨mapSet_ne_nil _ _ _, ?_, ?_⟩
            · rw [mapFind_mapSet_of_ne _ _ _ _ e2, mapFind_mapSet_of_ne _ _ _ _ e1,
                mapFind_mapSet_self]
            · rw [mapFind_mapSet_of_ne _ _ _ _ e2, mapFind_mapSet_of_ne _ _ _ _ e1,
                mapFind_mapSet_self, mapFind_mapSet_self, mapFind_mapSet_of_ne _ _ _ _ e3,
                mapFind_mapSet_self]
              simp
          · simp [h3, hm, ha] at h
        · simp [h3, hm] at h
      · simp only [h3, if_false] at h ⊢
        by_cases h4 : ((e.Get "action").Get actionIdTag).AsciiValue ≠ actionDeleteTag ∧
            ((e.Get "action").Get actionIdTag).AsciiValue ≠ actionAnonymizeTag ∧
            ((e.Get "action").Get actionIdTag).AsciiValue ≠ actionLogTag ∧
            ((e.Get "action").Get actionIdTag).AsciiValue ≠ actionSecureLogTag
        · simp [h4] at h
        · rw [if_neg h4]
          refine ⟨mapSet_ne_nil _ _ _, mapFind_mapSet_self _ _ _, ?_⟩
          rw [mapFind_mapSet_self]
          simp only [ne_eq, not_and_or, not_not] at h4
          rcases h4 with h4 | h4 | h4 | h4 <;> simp [h4]
    · simp [h1, h2] at h
  · simp [h1] at h

theorem actionStep_notify_incomplete (a : List (String × String)) (e : JSValue)
    (h1 : e.Has "action" = true) (h2 : (e.Get "action").Has actionIdTag = true)
    (h3 : specActionID e = actionNotifyTag)
    (h4 : (e.Get "action").Has mediaTag = false ∨ (e.Get "action").Has addressTag = false) :
    actionStep a e = ([], false) := by
  unfold specActionID at h3
  unfold actionStep
  simp only [h1, h2, h3, if_true]
  rcases h4 with h4 | h4
  · simp [h4]
  · by_cases hm : (e.Get "action").Has mediaTag = true <;> simp [hm, h4]

/-! ## One iteration of the obligation loop from a state with no pending trigger -/

theorem obligationStep_obs (n : Nat) (st : ObligationState) (e : JSValue)
    (h1 : st.trigger = []) (h2 : st.triggers = []) :
    (obligationStep n st e).obs =
      st.obs ++ (if specIncluded n e = true then
        [{ action := (actionStep st.action e).1, triggers := specTriggers n e }] else []) := by
  unfold obligationStep specIncluded
  simp only [h1, h2]
  by_cases ha : (actionStep st.action e).2 = true
  · have hne := (actionStep_fst_of_reached st.action e ha).1
    have hv : specValidAction e = true := by rw [← actionStep_snd st.action e]; exact ha
    by_cases ht : e.Has "triggers" = true
    · by_cases hr : (e.Get "triggers").IsArray = true
      · simp only [ha, ht, hr, if_true, triggerLoop_clean, List.nil_append, hv, Bool.true_and]
        have hs : specTriggers n e = (e.Get "triggers").elems.filterMap (specTrigger n) := by
          simp [specTriggers, ht, hr]
        rw [hs]
        cases hf : (e.Get "triggers").elems.filterMap (specTrigger n) <;> simp [hne]
      · simp [ha, ht, hr, specTriggers]
    · simp [ha, ht, specTriggers]
  · have hv : specValidAction e = false := by
      rw [← actionStep_snd st.action e]; simpa using ha
    simp [ha, hv]

theorem obligationStep_clean (n : Nat) (st : ObligationState) (e : JSValue)
    (h1 : st.trigger = []) (h2 : st.triggers = []) :
    (obligationStep n st e).trigger = [] ∧ (obligationStep n st e).triggers = [] := by
  unfold obligationStep
  simp only [h1, h2]
  by_cases ha : (actionStep st.action e).2 = true
  · by_cases ht : e.Has "triggers" = true
    · by_cases hr : (e.Get "triggers").IsArray = true
      · simp [ha, ht, hr, triggerLoop_clean]
      · simp [ha, ht, hr, h1, h2]
    · simp [ha, ht, h1, h2]
  · simp [ha, h1, h2]

theorem obligationStep_rejected (n : Nat) (st : ObligationState) (e : JSValue)
    (h : actionStep st.action e = ([], false)) :
    obligationStep n st e = { st with action := [] } := by
  unfold obligationStep
  simp [h]

theorem obligationStep_obs_shift (n : Nat) (st : ObligationState) (e : JSValue)
    (pre : List obligation) :
    obligationStep n { st with obs := pre ++ st.obs } e =
      { obligationStep n st e with obs := pre ++ (obligationStep n st e).obs } := by
  unfold obligationStep
  by_cases ha : (actionStep st.action e).2 = true
  · by_cases ht : e.Has "triggers" = true
    · by_cases hr : (e.Get "triggers").IsArray = true
      · simp only [ha, ht, hr, if_true]
        split <;> simp
      · simp [ha, ht, hr]
    · simp [ha, ht]
  · simp [ha]

/-! ## The obligation loop -/

theorem obligationFold_clean (n : Nat) (es : List JSValue) (st : ObligationState)
    (h1 : st.trigger = []) (h2 : st.triggers = []) :
    (es.foldl (obligationStep n) st).trigger = [] ∧
      (es.foldl (obligationStep n) st).triggers = [] := by
  induction es generalizing st with
  | nil => exact ⟨h1, h2⟩
  | cons e r ih =>
    rw [List.foldl_cons]
    exact ih _ (obligationStep_clean n st e h1 h2).1 (obligationStep_clean n st e h1 h2).2

theorem obligationFold_obs_shift (n : Nat) (es : List JSValue) (st : ObligationState)
    (pre : List obligation) :
    es.foldl (obligationStep n) { st with obs := pre ++ st.obs } =
      { es.foldl (obligationStep n) st with
        obs := pre ++ (es.foldl (obligationStep n) st).obs } := by
  induction es generalizing st with
  | nil => simp
  | cons e r ih =>
    rw [List.foldl_cons, List.foldl_cons, obligationStep_obs_shift]
    exact ih (obligationStep n st e)

theorem specTrigger_contract (n : Nat) (x : JSValue) (t : List (String × String))
    (h : specTrigger n x = some t) : triggerContract t = true := by
  obtain ⟨e1, e2, e3, e4, e5, e6⟩ := triggerTags_ne
  unfold specTrigger at h
  split at h
  · simp at h
  · split at h
    · rename_i hk
      split at h
      · simp only [Option.some.injEq] at h
        subst h
        simp [triggerContract, mapFind, hk, e1, e2, e5]
      · simp at h
    · split at h
      · rename_i hk
        split at h
        · simp only [Option.some.injEq] at h
          subst h
          simp [triggerContract, mapFind, hk, e2, e3, e6]
        · simp at h
      · split at h
        · rename_i hk
          split at h
          · simp only [Option.some.injEq] at h
            subst h
            simp [triggerContract, mapFind, hk, e2]
          · simp at h
        · split at h
          · rename_i hk
            split at h
            · simp only [Option.some.injEq] at h
              subst h
              simp [triggerContract, mapFind, hk, e4]
            · simp at h
          · simp at h

theorem specTriggers_contract (n : Nat) (e : JSValue) :
    (specTriggers n e).all triggerContract = true := by
  unfold specTriggers
  split
  · rw [List.all_eq_true]
    intro t ht
    obtain ⟨x, _, hx⟩ := List.mem_filterMap.mp ht
    exact specTrigger_contract n x t hx
  · simp

theorem obligationFold_contract (n : Nat) (es : List JSValue) (st : ObligationState)
    (h1 : st.trigger = []) (h2 : st.triggers = [])
    (h3 : st.obs.all obligationContract = true) :
    (es.foldl (obligationStep n) st).obs.all obligationContract = true := by
  induction es generalizing st with
  | nil => exact h3
  | cons e r ih =>
    rw [List.foldl_cons]
    apply ih _ (obligationStep_clean n st e h1 h2).1 (obligationStep_clean n st e h1 h2).2
    rw [obligationStep_obs n st e h1 h2]
    by_cases hi : specIncluded n e = true
    · have hi' := hi
      unfold specIncluded at hi'
      simp only [Bool.and_eq_true, Bool.not_eq_true', List.isEmpty_eq_false_iff_exists_mem] at hi'
      have hr : (actionStep st.action e).2 = true := by rw [actionStep_snd]; exact hi'.1
      have hne : (specTriggers n e).isEmpty = false := by
        obtain ⟨x, hx⟩ := hi'.2
        cases hs : specTriggers n e with
        | nil => rw [hs] at hx; simp at hx
        | cons a b => rfl
      simp [hi, h3, obligationContract, (actionStep_fst_of_reached st.action e hr).2.2, hne,
        specTriggers_contract n e]
    · simp [hi, h3]

theorem obligationList_of_array (n : Nat) (args0 : JSValue) (es : List JSValue)
    (hhas : args0.Has "obligations" = true)
    (harr : args0.Get "obligations" = JSValue.array es) :
    (buildRequest n args0).obs = (obligationLoop n es).obs := by
  simp [buildRequest, obligationList, hhas, harr, JSValue.IsArray, JSValue.elems]

theorem obligationLoop_append (n : Nat) (pre suf : List JSValue) :
    (obligationLoop n (pre ++ suf)).obs =
      (obligationLoop n pre).obs ++
        (suf.foldl (obligationStep n) { obligationLoop n pre with obs := [] }).obs := by
  unfold obligationLoop
  rw [List.foldl_append]
  have h := obligationFold_obs_shift n suf
    { List.foldl (obligationStep n) ObligationState.init pre with obs := [] }
    (List.foldl (obligationStep n) ObligationState.init pre).obs
  simp only [List.append_nil] at h
  rw [h]

/-! ## The purpose vector of the request -/

/-- C1: for every input that has no `purpose` key, the purpose vector of the
request built by `EnforceRequest` has length equal to the ontology size and
every entry is true. -/
theorem purpose_absent_all_true (n : Nat) (args0 : JSValue)
    (h : args0.Has "purpose" = false) :
    (buildRequest n args0).purpose = List.replicate n true ∧
    (buildRequest n args0).purpose.length = n ∧
    ∀ b ∈ (buildRequest n args0).purpose, b = true := by
  have e : (buildRequest n args0).purpose = List.replicate n true := by
    simp [buildRequest, purposeVector, h]
  rw [e]
  refine ⟨rfl, by simp, ?_⟩
  intro b hb
  exact (List.mem_replicate.mp hb).2

theorem purpose_absent_all_true_witness :
    staleActionInput.Has "purpose" = false ∧
    (buildRequest 3 staleActionInput).purpose = List.replicate 3 true ∧
    (buildRequest 3 staleActionInput).purpose.length = 3 ∧
    ∀ b ∈ (buildRequest 3 staleActionInput).purpose, b = true :=
  ⟨by decide, purpose_absent_all_true 3 staleActionInput (by decide)⟩

/-- C2: for every input whose `purpose` is an array of exactly ontology-size
elements that are all booleans, the purpose vector of the built request is that
array, element by element. -/
theorem purpose_boolean_array_kept (n : Nat) (args0 : JSValue) (bs : List Bool)
    (hhas : args0.Has "purpose" = true)
    (harr : args0.Get "purpose" = JSValue.array (bs.map JSValue.bool))
    (hlen : bs.length = n) :
    (buildRequest n args0).purpose = bs := by
  have hl : (args0.Get "purpose").Length = n := by
    simp [harr, JSValue.Length, JSValue.elems, hlen]
  have hf := purposeLoop_full (args0.Get "purpose")
  rw [hl] at hf
  simp only [buildRequest, purposeVector, hhas, if_true, hl, hf]
  simp [harr, JSValue.IsArray, JSValue.elems, JSValue.BooleanValue, Function.comp_def]

theorem purpose_boolean_array_kept_witness :
    booleanPurposeInput.Has "purpose" = true ∧
    booleanPurposeInput.Get "purpose" =
      JSValue.array ([true, false, true].map JSValue.bool) ∧
    [true, false, true].length = 3 ∧
    (buildRequest 3 booleanPurposeInput).purpose = [true, false, true] :=
  ⟨by decide, rfl, rfl,
    purpose_boolean_array_kept 3 booleanPurposeInput [true, false, true] (by decide) rfl rfl⟩

/-- C3: for every input whose `purpose` is present but is not an array, or is an
array whose length differs from the ontology size, the purpose vector of the
built request is empty (length 0); as the ontology has at least one purpose, it
is not the all-true default used when `purpose` is absent. -/
theorem purpose_rejected_empty (n : Nat) (args0 : JSValue)
    (hhas : args0.Has "purpose" = true)
    (h : (args0.Get "purpose").IsArray = false ∨ (args0.Get "purpose").Length ≠ n) :
    (buildRequest n args0).purpose = [] ∧
    (buildRequest n args0).purpose.length = 0 ∧
    (0 < n → (buildRequest n args0).purpose ≠ List.replicate n true) := by
  have e : (buildRequest n args0).purpose = [] := by
    rcases h with h | h
    · simp [buildRequest, purposeVector, hhas, h]
    · simp [buildRequest, purposeVector, hhas, h]
  rw [e]
  refine ⟨rfl, rfl, ?_⟩
  intro hn hc
  have := congrArg List.length hc
  simp at this
  omega

theorem purpose_rejected_empty_witness :
    shortPurposeInput.Has "purpose" = true ∧
    ((shortPurposeInput.Get "purpose").IsArray = false ∨
      (shortPurposeInput.Get "purpose").Length ≠ 3) ∧
    (buildRequest 3 shortPurposeInput).purpose = [] ∧
    (buildRequest 3 shortPurposeInput).purpose.length = 0 ∧
    (buildRequest 3 shortPurposeInput).purpose ≠ List.replicate 3 true :=
  ⟨by decide, Or.inr (by decide),
    (purpose_rejected_empty 3 shortPurposeInput (by decide) (Or.inr (by decide))).1,
    (purpose_rejected_empty 3 shortPurposeInput (by decide) (Or.inr (by decide))).2.1,
    (purpose_rejected_empty 3 shortPurposeInput (by decide) (Or.inr (by decide))).2.2
      (by decide)⟩

/-! ## The obligations of the request -/

/-- C5: every obligation of the built request satisfies its contract, for every
input: its action has a recognized `actionID` (with `media` and `address` for
`ActionNotifyDataSubject`), its trigger list is not empty, and each trigger has
a `triggerID` of the closed set with the fields its kind requires. -/
theorem obligations_satisfy_contract (n : Nat) (args0 : JSValue) :
    (buildRequest n args0).obs.all obligationContract = true := by
  simp only [buildRequest, obligationList]
  split
  · split
    · exact obligationFold_contract n _ ObligationState.init rfl rfl rfl
    · rfl
  · rfl

/-- C6 (the code departs from the claim): on `staleActionInput` the obligation
built for the `ActionDelete` element, whose own action has neither `media` nor
`address`, carries the `media` and `address` of the notify element before it,
which was dropped because it has no `triggers`. -/
theorem stale_action_fields_leak (n : Nat) :
    (deleteOnDeletion.Get "action").Has mediaTag = false ∧
    (deleteOnDeletion.Get "action").Has addressTag = false ∧
    (buildRequest n staleActionInput).obs =
      [{ action := [("actionID", "ActionDelete"), ("media", "sms"),
                    ("address", "dpo@example.org")],
         triggers := [[("triggerID", "TriggerPersonalDataDeleted"), ("maxDelay", "10")]] }] :=
  ⟨by decide, by decide, rfl⟩

/-- C8: for every input containing an obligation whose action has the actionID
`ActionNotifyDataSubject` but lacks `media` or `address`, that obligation is
absent from the built request whatever its triggers are, and the other elements
are still processed: the obligations of the request are those of the elements
before it followed by those of the elements after it. -/
theorem incomplete_notify_dropped (n : Nat) (args0 : JSValue)
    (pre suf : List JSValue) (e : JSValue)
    (hhas : args0.Has "obligations" = true)
    (harr : args0.Get "obligations" = JSValue.array (pre ++ e :: suf))
    (h1 : e.Has "action" = true) (h2 : (e.Get "action").Has actionIdTag = true)
    (h3 : specActionID e = actionNotifyTag)
    (h4 : (e.Get "action").Has mediaTag = false ∨ (e.Get "action").Has addressTag = false) :
    specIncluded n e = false ∧
    (buildRequest n args0).obs = (obligationLoop n pre).obs ++ (obligationLoop n suf).obs := by
  constructor
  · have hv : specValidAction e = false := by
      rw [← actionStep_snd [] e, actionStep_notify_incomplete [] e h1 h2 h3 h4]
    simp [specIncluded, hv]
  · rw [obligationList_of_array n args0 _ hhas harr, obligationLoop_append, List.foldl_cons,
      obligationStep_rejected n _ e (actionStep_notify_incomplete _ e h1 h2 h3 h4)]
    have hc := obligationFold_clean n pre ObligationState.init rfl rfl
    have hs : ({ obligationLoop n pre with obs := [], action := [] } : ObligationState) =
        ObligationState.init := by
      have hc1 : (obligationLoop n pre).trigger = [] := hc.1
      have hc2 : (obligationLoop n pre).triggers = [] := hc.2
      simp only [ObligationState.init, hc1, hc2]
    rw [hs]
    rfl

theorem incomplete_notify_dropped_witness :
    incompleteNotifyInput.Has "obligations" = true ∧
    incompleteNotifyInput.Get "obligations" =
      JSValue.array ([] ++ notifyWithoutAddress :: [deleteOnDeletion]) ∧
    notifyWithoutAddress.Has "action" = true ∧
    (notifyWithoutAddress.Get "action").Has actionIdTag = true ∧
    specActionID notifyWithoutAddress = actionNotifyTag ∧
    ((notifyWithoutAddress.Get "action").Has mediaTag = false ∨
      (notifyWithoutAddress.Get "action").Has addressTag = false) ∧
    specIncluded 1 notifyWithoutAddress = false ∧
    (buildRequest 1 incompleteNotifyInput).obs =
      (obligationLoop 1 []).obs ++ (obligationLoop 1 [deleteOnDeletion]).obs :=
  ⟨by decide, rfl, by decide, by decide, by decide, Or.inr (by decide),
    incomplete_notify_dropped 1 incompleteNotifyInput [] [deleteOnDeletion]
      notifyWithoutAddress (by decide) rfl (by decide) (by decide) (by decide)
      (Or.inr (by decide))⟩

theorem array_of_IsArray (v : JSValue) (h : v.IsArray = true) :
    v = JSValue.array v.elems := by
  cases v <;> simp [JSValue.IsArray, JSValue.elems] at h ⊢

theorem mapFind_mapPushBack (m : List (String × List String)) (k k' v : String) :
    mapFind (mapPushBack m k v) k' =
      if k' = k then (mapFind m k').map (fun l => l ++ [v]) else mapFind m k' := by
  induction m with
  | nil => simp [mapPushBack, mapFind]
  | cons p r ih =>
    unfold mapPushBack
    by_cases h : p.1 = k
    · by_cases h' : k' = k
      · subst h'
        simp [h, mapFind]
      · have h2 : ¬ p.1 = k' := fun e => h' (e.symm.trans h)
        have h3 : ¬ k = k' := fun e => h' e.symm
        simp [h, h', h3, mapFind]
    · rw [if_neg h]
      by_cases h2 : p.1 = k'
      · have h' : ¬ k' = k := fun e => h (h2.trans e)
        simp [mapFind, h2, h']
      · simp only [mapFind, if_neg h2, ih]

theorem mapPushBack_keys (m : List (String × List String)) (k v : String) :
    (mapPushBack m k v).map Prod.fst = m.map Prod.fst := by
  induction m with
  | nil => rfl
  | cons p r ih =>
    unfold mapPushBack
    by_cases h : p.1 = k
    · simp [h]
    · simp [h, ih]

theorem mapFind_pushField (g : JSValue) (f c k : String) (attrs : List (String × List String)) :
    mapFind (pushField g f c attrs) k =
      if g.Has f = true ∧ k = c then
        (mapFind attrs k).map (fun l => l ++ [(g.Get f).AsciiValue])
      else mapFind attrs k := by
  unfold pushField
  by_cases h : g.Has f = true
  · simp [h, mapFind_mapPushBack]
  · simp [h]

theorem pushField_keys (g : JSValue) (f c : String) (attrs : List (String × List String)) :
    (pushField g f c attrs).map Prod.fst = attrs.map Prod.fst := by
  unfold pushField
  split
  · exact mapPushBack_keys _ _ _
  · rfl

theorem mapFind_setField (g : JSValue) (f c k : String) (attrs : List (String × String)) :
    mapFind (setField g f c attrs) k =
      if g.Has f = true ∧ k = c then some (g.Get f).AsciiValue else mapFind attrs k := by
  unfold setField
  by_cases h : g.Has f = true
  · by_cases hk : k = c
    · subst hk
      simp [h, mapFind_mapSet_self]
    · simp [h, hk, mapFind_mapSet_of_ne _ _ _ _ hk]
  · simp [h]

theorem subjectAttrs_lookup (args0 : JSValue) (e : String × String × String)
    (he : e ∈ subjectCatalog) :
    mapFind (subjectAttrs args0) e.2.2 =
      some (if hasCatalogField args0 e = true then [(catalogField args0 e).AsciiValue]
            else []) := by
  simp only [subjectCatalog, List.mem_cons, List.mem_singleton, List.not_mem_nil, or_false] at he
  by_cases h1 : args0.Has "subjectInfo" = true <;>
  by_cases h2 : args0.Has "widgetInfo" = true <;>
  by_cases h3 : args0.Has "deviceInfo" = true <;>
  rcases he with rfl | rfl | rfl | rfl | rfl | rfl | rfl | rfl | rfl | rfl | rfl | rfl | rfl |
    rfl | rfl | rfl | rfl | rfl | rfl <;>
  simp [subjectAttrs, deviceInfoAttrs, widgetInfoAttrs, subjectInfoAttrs, hasCatalogField,
    catalogField, mapFind_pushField, subject_attrs_init, mapFind, h1, h2, h3] <;>
  try (split <;> simp_all)

theorem resourceAttrs_lookup (args0 : JSValue) (e : String × String × String)
    (he : e ∈ resourceCatalog) :
    mapFind (resourceAttrs args0) e.2.2 =
      some (if hasCatalogField args0 e = true then [(catalogField args0 e).AsciiValue]
            else []) := by
  simp only [resourceCatalog, List.mem_cons, List.mem_singleton, List.not_mem_nil, or_false] at he
  by_cases h1 : args0.Has "resourceInfo" = true <;>
  rcases he with rfl | rfl | rfl | rfl <;>
  simp [resourceAttrs, hasCatalogField, catalogField, mapFind_pushField, resource_attrs_init,
    mapFind, h1] <;>
  try (split <;> simp_all)

theorem environmentAttrs_lookup (args0 : JSValue) (e : String × String × String)
    (he : e ∈ environmentCatalog) :
    mapFind (environmentAttrs args0) e.2.2 =
      if hasCatalogField args0 e = true then some (catalogField args0 e).AsciiValue
      else none := by
  simp only [environmentCatalog, List.mem_cons, List.mem_singleton, List.not_mem_nil,
    or_false] at he
  by_cases h1 : args0.Has "environmentInfo" = true <;>
  rcases he with rfl | rfl | rfl | rfl <;>
  simp [environmentAttrs, hasCatalogField, catalogField, mapFind_setField, mapFind, h1]

/-! ## The attribute sets of the request -/

/-- C12: for every input, the Subject attribute set of the built request has
exactly the 19 catalog categories as keys and the Resource attribute set exactly
its 4 categories; a category whose field is not in the input is present with an
empty sequence. -/
theorem catalog_total_coverage (n : Nat) (args0 : JSValue) :
    (buildRequest n args0).subject_attrs.map Prod.fst =
      ["user-id", "user-key-cn", "user-key-fingerprint", "user-key-root-cn",
       "user-key-root-fingerprint", "id", "distributor-key-cn",
       "distributor-key-fingerprint", "distributor-key-root-cn",
       "distributor-key-root-fingerprint", "author-key-cn", "author-key-fingerprint",
       "author-key-root-cn", "author-key-root-fingerprint", "target-id", "target-domain",
       "requestor-id", "requestor-domain", "webinos-enabled"] ∧
    (buildRequest n args0).resource_attrs.map Prod.fst =
      ["api-feature", "service-id", "device-cap", "param:feature"] ∧
    (∀ e ∈ subjectCatalog, (mapFind (buildRequest n args0).subject_attrs e.2.2).isSome = true ∧
      (hasCatalogField args0 e = false →
        mapFind (buildRequest n args0).subject_attrs e.2.2 = some [])) ∧
    (∀ e ∈ resourceCatalog, (mapFind (buildRequest n args0).resource_attrs e.2.2).isSome = true ∧
      (hasCatalogField args0 e = false →
        mapFind (buildRequest n args0).resource_attrs e.2.2 = some [])) := by
  refine ⟨?_, ?_, ?_, ?_⟩
  · simp only [buildRequest, subjectAttrs, deviceInfoAttrs, widgetInfoAttrs, subjectInfoAttrs]
    split <;> split <;> split <;> simp [pushField_keys, subject_attrs_init]
  · simp only [buildRequest, resourceAttrs]
    split <;> simp [pushField_keys, resource_attrs_init]
  · intro e he
    simp only [buildRequest, subjectAttrs_lookup args0 e he]
    exact ⟨rfl, fun hf => by simp [hf]⟩
  · intro e he
    simp only [buildRequest, resourceAttrs_lookup args0 e he]
    exact ⟨rfl, fun hf => by simp [hf]⟩

theorem catalog_total_coverage_witness :
    hasCatalogField aliceInput ("deviceInfo", "targetId", "target-id") = false ∧
    mapFind (buildRequest 1 aliceInput).subject_attrs "target-id" = some [] ∧
    hasCatalogField aliceInput ("resourceInfo", "deviceCap", "device-cap") = false ∧
    mapFind (buildRequest 1 aliceInput).resource_attrs "device-cap" = some [] :=
  ⟨by decide,
    ((catalog_total_coverage 1 aliceInput).2.2.1 ("deviceInfo", "targetId", "target-id")
      (by decide)).2 (by decide),
    by decide,
    ((catalog_total_coverage 1 aliceInput).2.2.2 ("resourceInfo", "deviceCap", "device-cap")
      (by decide)).2 (by decide)⟩

/-- C13: for the input `{subjectInfo:{userId:"alice"},
resourceInfo:{apiFeature:"geolocation"}}`, whatever the ontology size, the built
request has Subject["user-id"] = ["alice"], Resource["api-feature"] =
["geolocation"], every other Subject and Resource category empty, an all-true
purpose vector of ontology-size length and an empty obligation list. -/
theorem alice_end_to_end (n : Nat) :
    (buildRequest n aliceInput).subject_attrs =
      [("user-id", ["alice"]), ("user-key-cn", []), ("user-key-fingerprint", []),
       ("user-key-root-cn", []), ("user-key-root-fingerprint", []), ("id", []),
       ("distributor-key-cn", []), ("distributor-key-fingerprint", []),
       ("distributor-key-root-cn", []), ("distributor-key-root-fingerprint", []),
       ("author-key-cn", []), ("author-key-fingerprint", []), ("author-key-root-cn", []),
       ("author-key-root-fingerprint", []), ("target-id", []), ("target-domain", []),
       ("requestor-id", []), ("requestor-domain", []), ("webinos-enabled", [])] ∧
    (buildRequest n aliceInput).resource_attrs =
      [("api-feature", ["geolocation"]), ("service-id", []), ("device-cap", []),
       ("param:feature", [])] ∧
    (buildRequest n aliceInput).purpose = List.replicate n true ∧
    (buildRequest n aliceInput).purpose.length = n ∧
    (buildRequest n aliceInput).obs = [] :=
  ⟨rfl, rfl, rfl, by simp [buildRequest, purposeVector, aliceInput, JSValue.Has], rfl⟩

/-! ## The calls of a session -/

theorem cString_idem (s : String) : cString (cString s) = cString s := by
  unfold cString
  congr 1
  apply List.takeWhile_eq_self_iff.mpr
  intro c hc
  exact List.mem_takeWhile_imp (p := fun c => c != Char.ofNat 0) hc

/-- C16 (the code departs from the claim): for the seed `sampleSeed`, whose known
ids are alice and bob, the constructor seeds the engine with these two ids, but
`ReloadPolicy` seeds the new engine with the single id "undefined". -/
theorem reload_loses_known_ids :
    sampleSeed.IsObject = true ∧
    mapFind (newSeed sampleSeed) knownIdKey = some ["alice", "bob"] ∧
    (ReloadPolicy sampleSession [sampleSeed]).2 = Except.ok 0 ∧
    (ReloadPolicy sampleSession [sampleSeed]).1.pminst =
      some { policyFileName := "policy.xml",
             pip := [(ownerIdKey, ["owner"]), (knownIdKey, ["undefined"])] } :=
  ⟨by decide, by decide, rfl, rfl⟩

/-- C17 (the code departs from the claim): a `ReloadPolicy` call without argument,
or with an argument that is not an object, on a session with a live engine fails
and leaves the session without engine, so that the next `EnforceRequest` has no
engine to ask. -/
theorem failed_reload_leaves_no_engine :
    sampleSession.pminst.isSome = true ∧
    (ReloadPolicy sampleSession []).2 = Except.error "Missing argument" ∧
    (ReloadPolicy sampleSession []).1.pminst = none ∧
    (ReloadPolicy sampleSession [JSValue.number 1]).2 = Except.error "Bad type argument" ∧
    (ReloadPolicy sampleSession [JSValue.number 1]).1.pminst = none ∧
    EnforceRequest 1 permitAll (ReloadPolicy sampleSession []).1 [aliceInput] =
      Except.error "engine deleted" :=
  ⟨rfl, rfl, rfl, rfl, rfl, rfl⟩

/-! ## Unknown keys -/

theorem pushField_congr (g g' : JSValue) (f c : String) (attrs : List (String × List String))
    (h : agreeOn g g' f) : pushField g f c attrs = pushField g' f c attrs := by
  unfold pushField
  rw [h.1, h.2]

theorem setField_congr (g g' : JSValue) (f c : String) (attrs : List (String × String))
    (h : agreeOn g g' f) : setField g f c attrs = setField g' f c attrs := by
  unfold setField
  rw [h.1, h.2]

theorem foldl_congr_forall₂ {σ α : Type} (R : α → α → Prop) (f : σ → α → σ)
    (hf : ∀ st x y, R x y → f st x = f st y) (xs ys : List α) (h : List.Forall₂ R xs ys)
    (st : σ) : xs.foldl f st = ys.foldl f st := by
  induction h generalizing st with
  | nil => rfl
  | cons hxy _ ih =>
    rw [List.foldl_cons, List.foldl_cons, hf st _ _ hxy]
    exact ih _

theorem triggerStep_congr (n : Nat) (st : TriggerState) (s t : JSValue)
    (h : agreeTrigger s t) : triggerStep n st s = triggerStep n st t := by
  have h1 := h triggerIdTag (by simp)
  have h2 := h startTag (by simp)
  have h3 := h maxDelayTag (by simp)
  have h4 := h purposeTag (by simp)
  have h5 := h uriTag (by simp)
  simp only [triggerStep, triggerFields, h1.1, h1.2, h2.1, h2.2, h3.1, h3.2, h4.1, h4.2,
    h5.1, h5.2]

theorem actionStep_congr (action : List (String × String)) (x y : JSValue)
    (h0 : x.Has "action" = y.Has "action")
    (h : ∀ f ∈ [actionIdTag, mediaTag, addressTag],
      agreeOn (x.Get "action") (y.Get "action") f) :
    actionStep action x = actionStep action y := by
  have h1 := h actionIdTag (by simp)
  have h2 := h mediaTag (by simp)
  have h3 := h addressTag (by simp)
  simp only [actionStep, h0, h1.1, h1.2, h2.1, h2.2, h3.1, h3.2]

theorem obligationStep_congr (n : Nat) (st : ObligationState) (x y : JSValue)
    (h : agreeObligation x y) : obligationStep n st x = obligationStep n st y := by
  obtain ⟨h0, ha, ht, hr, hts⟩ := h
  have hf := foldl_congr_forall₂ agreeTrigger (triggerStep n) (triggerStep_congr n) _ _ hts
  simp only [obligationStep, actionStep_congr st.action x y h0 ha, ht, hr, hf]

theorem buildRequest_congr (n : Nat) (a b : JSValue) (h : agreeInput a b) :
    buildRequest n a = buildRequest n b := by
  obtain ⟨hr, hs, hw, hd, he, hp, ho1, ho2, ho3⟩ := h
  have e1 : resourceAttrs a = resourceAttrs b := by
    unfold resourceAttrs
    rw [hr.1]
    split
    · simp only
      rw [pushField_congr _ _ _ _ _ (hr.2 "deviceCap" (by simp)),
        pushField_congr _ _ _ _ _ (hr.2 "apiFeature" (by simp)),
        pushField_congr _ _ _ _ _ (hr.2 "serviceId" (by simp)),
        pushField_congr _ _ _ _ _ (hr.2 "paramFeature" (by simp))]
    · rfl
  have e2 : ∀ attrs, subjectInfoAttrs a attrs = subjectInfoAttrs b attrs := by
    intro attrs
    unfold subjectInfoAttrs
    rw [hs.1]
    split
    · simp only
      rw [pushField_congr _ _ _ _ _ (hs.2 "userId" (by simp)),
        pushField_congr _ _ _ _ _ (hs.2 "userKeyCn" (by simp)),
        pushField_congr _ _ _ _ _ (hs.2 "userKeyFingerprint" (by simp)),
        pushField_congr _ _ _ _ _ (hs.2 "userKeyRootCn" (by simp)),
        pushField_congr _ _ _ _ _ (hs.2 "userKeyRootFingerprint" (by simp))]
    · rfl
  have e3 : ∀ attrs, widgetInfoAttrs a attrs = widgetInfoAttrs b attrs := by
    intro attrs
    unfold widgetInfoAttrs
    rw [hw.1]
    split
    · simp only
      rw [pushField_congr _ _ _ _ _ (hw.2 "id" (by simp)),
        pushField_congr _ _ _ _ _ (hw.2 "distributorKeyCn" (by simp)),
        pushField_congr _ _ _ _ _ (hw.2 "distributorKeyFingerprint" (by simp)),
        pushField_congr _ _ _ _ _ (hw.2 "distributorKeyRootCn" (by simp)),
        pushField_congr _ _ _ _ _ (hw.2 "distributorKeyRootFingerprint" (by simp)),
        pushField_congr _ _ _ _ _ (hw.2 "authorKeyCn" (by simp)),
        pushField_congr _ _ _ _ _ (hw.2 "authorKeyFingerprint" (by simp)),
        pushField_congr _ _ _ _ _ (hw.2 "authorKeyRootCn" (by simp)),
        pushField_congr _ _ _ _ _ (hw.2 "authorKeyRootFingerprint" (by simp))]
    · rfl
  have e4 : ∀ attrs, deviceInfoAttrs a attrs = deviceInfoAttrs b attrs := by
    intro attrs
    unfold deviceInfoAttrs
    rw [hd.1]
    split
    · simp only
      rw [pushField_congr _ _ _ _ _ (hd.2 "targetId" (by simp)),
        pushField_congr _ _ _ _ _ (hd.2 "targetDomain" (by simp)),
        pushField_congr _ _ _ _ _ (hd.2 "requestorId" (by simp)),
        pushField_congr _ _ _ _ _ (hd.2 "requestorDomain" (by simp)),
        pushField_congr _ _ _ _ _ (hd.2 "webinosEnabled" (by simp))]
    · rfl
  have e5 : environmentAttrs a = environmentAttrs b := by
    unfold environmentAttrs
    rw [he.1]
    split
    · simp only
      rw [setField_congr _ _ _ _ _ (he.2 "profile" (by simp)),
        setField_congr _ _ _ _ _ (he.2 "timemin" (by simp)),
        setField_congr _ _ _ _ _ (he.2 "days-of-week" (by simp)),
        setField_congr _ _ _ _ _ (he.2 "days-of-month" (by simp))]
    · rfl
  have e6 : purposeVector n a = purposeVector n b := by
    unfold purposeVector
    rw [hp.1, hp.2]
  have e7 : obligationList n a = obligationList n b := by
    unfold obligationList obligationLoop
    rw [ho1, ho2, foldl_congr_forall₂ agreeObligation (obligationStep n)
      (obligationStep_congr n) _ _ ho3]
  simp only [buildRequest, subjectAttrs, e1, e2, e3, e4, e5, e6, e7]

/-! ## Determinism, purpose vectors and the environment -/

/-- C21: two `EnforceRequest` calls with the same first argument hand the same
request (Subject, Resource, purpose vector, obligations, Environment) to the
engine, whatever the call counters of the sessions, their engines and the other
arguments are; in particular the request of an input is the same before and
after another request has been processed on the session, while the call counter
has moved on. -/
theorem enforce_deterministic (n : Nat)
    (checkRequest : PolicyManager → Request → Effect × String)
    (self self' : Session) (pm pm' : PolicyManager) (args0 other : JSValue)
    (rest rest' rest'' : List JSValue)
    (hobj : args0.IsObject = true) (hother : other.IsObject = true)
    (hpm : self.pminst = some pm) (hpm' : self'.pminst = some pm') :
    (∃ r r' : Enforced,
      EnforceRequest n checkRequest self (args0 :: rest) = Except.ok r ∧
      EnforceRequest n checkRequest self' (args0 :: rest') = Except.ok r' ∧
      r.request = r'.request ∧ r.request = buildRequest n args0) ∧
    (∃ r1 r2 r3 : Enforced,
      EnforceRequest n checkRequest self (args0 :: rest) = Except.ok r1 ∧
      EnforceRequest n checkRequest r1.session (other :: rest'') = Except.ok r2 ∧
      EnforceRequest n checkRequest r2.session (args0 :: rest') = Except.ok r3 ∧
      r3.request = r1.request ∧
      r1.session.m_count = self.m_count + 1 ∧ r3.session.m_count = self.m_count + 3) := by
  constructor
  · simp only [EnforceRequest, hobj, hpm, hpm']
    exact ⟨_, _, rfl, rfl, rfl, rfl⟩
  · simp only [EnforceRequest, hobj, hother, hpm]
    exact ⟨_, _, _, rfl, rfl, rfl, rfl, rfl, rfl⟩

theorem enforce_deterministic_witness :
    aliceInput.IsObject = true ∧ profileInput.IsObject = true ∧
    sampleSession.pminst = some { policyFileName := "policy.xml", pip := [] } ∧
    (∃ r r' : Enforced,
      EnforceRequest 1 permitAll sampleSession (aliceInput :: []) = Except.ok r ∧
      EnforceRequest 1 permitAll sampleSession (aliceInput :: [profileInput]) = Except.ok r' ∧
      r.request = r'.request ∧ r.request = buildRequest 1 aliceInput) ∧
    (∃ r1 r2 r3 : Enforced,
      EnforceRequest 1 permitAll sampleSession (aliceInput :: []) = Except.ok r1 ∧
      EnforceRequest 1 permitAll r1.session (profileInput :: []) = Except.ok r2 ∧
      EnforceRequest 1 permitAll r2.session (aliceInput :: [profileInput]) = Except.ok r3 ∧
      r3.request = r1.request ∧
      r1.session.m_count = sampleSession.m_count + 1 ∧
      r3.session.m_count = sampleSession.m_count + 3) :=
  ⟨by decide, by decide, rfl,
    enforce_deterministic 1 permitAll sampleSession sampleSession
      { policyFileName := "policy.xml", pip := [] } { policyFileName := "policy.xml", pip := [] }
      aliceInput profileInput [] [profileInput] [] (by decide) (by decide) rfl rfl⟩

theorem specPurposeBits_getElem? (xs : List JSValue) (k : Nat) :
    (specPurposeBits (JSValue.array xs)).data[k]? =
      (xs[k]?).map (fun v => if v.BooleanValue then '1' else '0') := by
  simp [specPurposeBits, JSValue.elems]

/-- C22: a `TriggerPersonalDataAccessedForPurpose` trigger that has `maxDelay`
and a `purpose` array of exactly ontology-size elements is validated with a
purpose field that is a string of ontology-size length over the characters 0 and
1 whose k-th character is 1 iff element k of the array is true (as
`BooleanValue` reads it); if `purpose` is missing, its length differs from the
ontology size, or `maxDelay` is missing, the trigger alone is dropped: the
triggers before and after it are validated as if it were not there. -/
theorem purpose_trigger_bits (n : Nat) (t : JSValue) (acc : List (List (String × String)))
    (hid : t.Has triggerIdTag = true)
    (hkind : (t.Get triggerIdTag).AsciiValue = triggerPersonalDataAccessedTag) :
    (∀ xs : List JSValue, t.Has purposeTag = true → t.Get purposeTag = JSValue.array xs →
      xs.length = n → t.Has maxDelayTag = true →
      ∃ (tr : List (String × String)) (bits : String),
        triggerStep n { trigger := [], triggers := acc } t =
          { trigger := [], triggers := acc ++ [tr] } ∧
        mapFind tr triggerIdTag = some triggerPersonalDataAccessedTag ∧
        mapFind tr maxDelayTag = some (t.Get maxDelayTag).AsciiValue ∧
        mapFind tr purposeTag = some bits ∧ bits.length = n ∧
        ∀ k (hk : k < xs.length),
          (bits.data[k]? = some '1' ↔ (xs.get ⟨k, hk⟩).BooleanValue = true) ∧
          (bits.data[k]? = some '0' ↔ (xs.get ⟨k, hk⟩).BooleanValue = false)) ∧
    ((t.Has purposeTag = false ∨ (t.Get purposeTag).Length ≠ n ∨ t.Has maxDelayTag = false) →
      triggerStep n { trigger := [], triggers := acc } t = { trigger := [], triggers := acc } ∧
      ∀ before after : List JSValue,
        ((before ++ t :: after).foldl (triggerStep n) { trigger := [], triggers := [] }).triggers =
        ((before ++ after).foldl (triggerStep n) { trigger := [], triggers := [] }).triggers) := by
  obtain ⟨e1, e2, e3, e4, e5, e6⟩ := triggerTags_ne
  have d1 : triggerPersonalDataAccessedTag ≠ triggerAtTimeTag := by decide
  constructor
  · intro xs hp harr hlen hm
    have hl : (t.Get purposeTag).Length = n := by
      simp [harr, JSValue.Length, JSValue.elems, hlen]
    have hs : specTrigger n t =
        some [(triggerIdTag, triggerPersonalDataAccessedTag),
              (purposeTag, specPurposeBits (JSValue.array xs)),
              (maxDelayTag, (t.Get maxDelayTag).AsciiValue)] := by
      unfold specTrigger
      simp only [hid, hkind, d1, hp, hl, hm]
      simp [harr]
    refine ⟨[(triggerIdTag, triggerPersonalDataAccessedTag),
              (purposeTag, specPurposeBits (JSValue.array xs)),
              (maxDelayTag, (t.Get maxDelayTag).AsciiValue)],
      specPurposeBits (JSValue.array xs), ?_, ?_, ?_, ?_, ?_, ?_⟩
    · rw [triggerStep_clean, hs]
      rfl
    · simp [mapFind]
    · simp [mapFind, e2, e6]
    · simp [mapFind, e3]
    · simp [specPurposeBits, JSValue.elems, String.length, hlen]
    · intro k hk
      rw [specPurposeBits_getElem?, List.getElem?_eq_getElem hk]
      simp only [List.get_eq_getElem, Option.map_some']
      cases (xs[k]).BooleanValue <;> simp
  · intro h
    have hs : specTrigger n t = none := by
      unfold specTrigger
      rcases h with h | h | h
      · simp [hid, hkind, d1, h]
      · simp [hid, hkind, d1, h]
      · simp [hid, hkind, d1, h]
    refine ⟨by rw [triggerStep_clean, hs]; simp, ?_⟩
    intro before after
    rw [triggerLoop_clean, triggerLoop_clean]
    simp [List.filterMap_append, List.filterMap_cons, hs]

theorem purpose_trigger_bits_witness :
    purposeTrigger.Has triggerIdTag = true ∧
    (purposeTrigger.Get triggerIdTag).AsciiValue = triggerPersonalDataAccessedTag ∧
    (∃ (tr : List (String × String)) (bits : String),
      triggerStep 3 { trigger := [], triggers := [] } purposeTrigger =
        { trigger := [], triggers := [] ++ [tr] } ∧
      mapFind tr triggerIdTag = some triggerPersonalDataAccessedTag ∧
      mapFind tr maxDelayTag = some (purposeTrigger.Get maxDelayTag).AsciiValue ∧
      mapFind tr purposeTag = some bits ∧ bits.length = 3 ∧
      ∀ k (hk : k < [JSValue.bool true, JSValue.bool false, JSValue.bool true].length),
        (bits.data[k]? = some '1' ↔
          ([JSValue.bool true, JSValue.bool false, JSValue.bool true].get ⟨k, hk⟩).BooleanValue
            = true) ∧
        (bits.data[k]? = some '0' ↔
          ([JSValue.bool true, JSValue.bool false, JSValue.bool true].get ⟨k, hk⟩).BooleanValue
            = false)) ∧
    shortPurposeTrigger.Has triggerIdTag = true ∧
    (shortPurposeTrigger.Get triggerIdTag).AsciiValue = triggerPersonalDataAccessedTag ∧
    (shortPurposeTrigger.Get purposeTag).Length ≠ 3 ∧
    (([deletedTrigger] ++ shortPurposeTrigger :: [purposeTrigger]).foldl (triggerStep 3)
        { trigger := [], triggers := [] }).triggers =
      (([deletedTrigger] ++ [purposeTrigger]).foldl (triggerStep 3)
        { trigger := [], triggers := [] }).triggers :=
  ⟨by decide, by decide,
    (purpose_trigger_bits 3 purposeTrigger [] (by decide) (by decide)).1
      [JSValue.bool true, JSValue.bool false, JSValue.bool true] (by decide) rfl rfl (by decide),
    by decide, by decide, by decide,
    ((purpose_trigger_bits 3 shortPurposeTrigger [] (by decide) (by decide)).2
      (Or.inr (Or.inl (by decide)))).2 [deletedTrigger] [purposeTrigger]⟩

theorem purposeVector_of_array (n : Nat) (args0 : JSValue) (xs : List JSValue)
    (hhas : args0.Has "purpose" = true) (harr : args0.Get "purpose" = JSValue.array xs)
    (hlen : xs.length = n) :
    purposeVector n args0 = xs.map JSValue.BooleanValue := by
  have hl : (args0.Get "purpose").Length = n := by
    simp [harr, JSValue.Length, JSValue.elems, hlen]
  have hf := purposeLoop_full (args0.Get "purpose")
  rw [hl] at hf
  simp only [purposeVector, hhas, if_true, hl, hf]
  simp [harr, JSValue.IsArray, JSValue.elems]

/-- C23: for every input, the purpose vector of the built request has length 0
or exactly the ontology size: it is empty, or it is the all-true default, or it
is the whole supplied array read element by element; a partially filled vector
never reaches the engine. -/
theorem purpose_length_zero_or_full (n : Nat) (args0 : JSValue) :
    ((buildRequest n args0).purpose.length = 0 ∨ (buildRequest n args0).purpose.length = n) ∧
    ((buildRequest n args0).purpose = [] ∨
      (buildRequest n args0).purpose = List.replicate n true ∨
      ((args0.Get "purpose").elems.length = n ∧
        (buildRequest n args0).purpose =
          (args0.Get "purpose").elems.map JSValue.BooleanValue)) := by
  have h : (buildRequest n args0).purpose = [] ∨
      (buildRequest n args0).purpose = List.replicate n true ∨
      ((args0.Get "purpose").elems.length = n ∧
        (buildRequest n args0).purpose =
          (args0.Get "purpose").elems.map JSValue.BooleanValue) := by
    simp only [buildRequest]
    by_cases hhas : args0.Has "purpose" = true
    · by_cases harr : (args0.Get "purpose").IsArray = true
      · by_cases hl : (args0.Get "purpose").Length = n
        · right; right
          exact ⟨hl, purposeVector_of_array n args0 _ hhas (array_of_IsArray _ harr) hl⟩
        · left
          simp [purposeVector, hhas, harr, hl]
      · left
        simp [purposeVector, hhas, harr]
    · right; left
      simp [purposeVector, hhas]
  refine ⟨?_, h⟩
  rcases h with h | h | ⟨hl, h⟩
  · left; rw [h]; rfl
  · right; rw [h]; simp
  · right; rw [h]; simpa using hl

/-- C24: for every `purpose` array of ontology-size length, whatever its
elements are, the purpose vector of the built request has ontology-size length
and its entry i is the boolean coercion of element i; the branch that clears the
vector is never taken, at any position of the loop. -/
theorem purpose_array_coerced (n : Nat) (args0 : JSValue) (xs : List JSValue)
    (hhas : args0.Has "purpose" = true) (harr : args0.Get "purpose" = JSValue.array xs)
    (hlen : xs.length = n) :
    (buildRequest n args0).purpose = xs.map JSValue.BooleanValue ∧
    (buildRequest n args0).purpose.length = n ∧
    (∀ i (hi : i < xs.length),
      (buildRequest n args0).purpose[i]? = some (xs.get ⟨i, hi⟩).BooleanValue) ∧
    (∀ (left i : Nat) (purpose : List Bool),
      (purposeLoop (JSValue.array xs) left i purpose).length = purpose.length + left) := by
  have e : (buildRequest n args0).purpose = xs.map JSValue.BooleanValue :=
    purposeVector_of_array n args0 xs hhas harr hlen
  refine ⟨e, by rw [e]; simpa using hlen, ?_, ?_⟩
  · intro i hi
    rw [e]
    simp [List.getElem?_eq_getElem hi]
  · intro left i purpose
    rw [purposeLoop_eq]
    simp

theorem purpose_array_coerced_witness :
    mixedPurposeInput.Has "purpose" = true ∧
    mixedPurposeInput.Get "purpose" =
      JSValue.array [JSValue.number 1, JSValue.string "", JSValue.null] ∧
    [JSValue.number 1, JSValue.string "", JSValue.null].length = 3 ∧
    (buildRequest 3 mixedPurposeInput).purpose = [true, false, false] ∧
    (buildRequest 3 mixedPurposeInput).purpose.length = 3 :=
  ⟨by decide, rfl, rfl,
    (purpose_array_coerced 3 mixedPurposeInput
      [JSValue.number 1, JSValue.string "", JSValue.null] (by decide) rfl rfl).1.trans
      (by decide),
    (purpose_array_coerced 3 mixedPurposeInput
      [JSValue.number 1, JSValue.string "", JSValue.null] (by decide) rfl rfl).2.1⟩

theorem environmentAttrs_outside (args0 : JSValue) (k : String)
    (hk : k ∉ environmentCatalog.map (fun e => e.2.2)) :
    mapFind (environmentAttrs args0) k = none := by
  simp only [environmentCatalog, List.map_cons, List.map_nil, List.mem_cons,
    List.mem_singleton, List.not_mem_nil, or_false, not_or] at hk
  obtain ⟨h1, h2, h3, h4⟩ := hk
  unfold environmentAttrs
  split
  · simp [mapFind_setField, mapFind, h1, h2, h3, h4]
  · rfl

/-! ## Strings of ASCII characters are read as they are -/

theorem asciiChar_of_ascii (c : Char) (h0 : 0 < c.toNat) (h1 : c.toNat < 128) :
    (utf16Units c).map asciiChar = [c] := by
  have hu : utf16Units c = [c.toNat] := by
    unfold utf16Units
    rw [if_pos (by omega)]
  have hm : c.toNat % 256 = c.toNat := Nat.mod_eq_of_lt (by omega)
  rw [hu]
  simp only [List.map_cons, List.map_nil, asciiChar, hm]
  rw [if_neg (by omega), Char.ofNat_toNat]

theorem WriteAscii_of_asciiText (s : String) (h : asciiText s = true) : WriteAscii s = s := by
  unfold WriteAscii
  have key : ∀ l : List Char,
      l.all (fun c => decide (0 < c.toNat) && decide (c.toNat < 128)) = true →
      (l.map utf16Units).flatten.map asciiChar = l := by
    intro l
    induction l with
    | nil => intro _; rfl
    | cons c r ih =>
      intro hl
      simp only [List.all_cons, Bool.and_eq_true, decide_eq_true_eq] at hl
      simp only [List.map_cons, List.flatten_cons, List.map_append]
      rw [asciiChar_of_ascii c hl.1.1 hl.1.2, ih hl.2]
      rfl
  rw [key s.data h]

theorem cString_of_asciiText (s : String) (h : asciiText s = true) : cString s = s := by
  unfold cString
  have : s.data.takeWhile (fun c => c != Char.ofNat 0) = s.data := by
    apply List.takeWhile_eq_self_iff.mpr
    intro c hc
    have hc' := List.all_eq_true.mp h c hc
    simp only [Bool.and_eq_true, decide_eq_true_eq] at hc'
    simp only [bne_iff_ne, ne_eq]
    intro e
    rw [e] at hc'
    simp at hc'
  rw [this]

theorem AsciiValue_of_IsAsciiText (v : JSValue) (h : v.IsAsciiText = true) :
    v.stringValue = some v.AsciiValue := by
  cases v <;> simp [JSValue.IsAsciiText] at h
  simp [JSValue.stringValue, JSValue.AsciiValue, JSValue.ToStringJS, JSValue.elemString,
    WriteAscii_of_asciiText _ h, cString_of_asciiText _ h]

theorem triggerFoldRun_none (n : Nat) (ts : List JSValue) :
    ts.foldl (triggerStepRun n) none = none := by
  induction ts with
  | nil => rfl
  | cons t r ih => simpa [List.foldl_cons, triggerStepRun] using ih

theorem obligationFoldRun_none (n : Nat) (es : List JSValue) :
    es.foldl (obligationStepRun n) none = none := by
  induction es with
  | nil => rfl
  | cons e r ih => simpa [List.foldl_cons, obligationStepRun] using ih

theorem obligationStepRun_some (n : Nat) (st st' : ObligationState) (e : JSValue)
    (h : obligationStepRun n (some st) e = some st') : st' = obligationStep n st e := by
  unfold obligationStepRun at h
  simp only at h
  split at h
  · simp at h
  · split at h
    · simp at h
    · split at h
      · simp at h
      · simpa using h.symm

theorem obligationFoldRun_some (n : Nat) (es : List JSValue) (st st' : ObligationState)
    (h : es.foldl (obligationStepRun n) (some st) = some st') :
    st' = es.foldl (obligationStep n) st := by
  induction es generalizing st with
  | nil => simpa using h.symm
  | cons e r ih =>
    rw [List.foldl_cons] at h
    cases hs : obligationStepRun n (some st) e with
    | none => rw [hs, obligationFoldRun_none] at h; simp at h
    | some st1 =>
      rw [hs] at h
      rw [List.foldl_cons, ← obligationStepRun_some n st st1 e hs]
      exact ih st1 h

theorem buildRequestRun_some (n : Nat) (args0 : JSValue) (req : Request)
    (h : buildRequestRun n args0 = some req) : req = buildRequest n args0 := by
  unfold buildRequestRun at h
  split at h
  · simp at h
  · cases ho : obligationListRun n args0 with
    | none => rw [ho] at h; simp at h
    | some obs =>
      rw [ho] at h
      simp only [Option.some.injEq] at h
      have hobs : obs = obligationList n args0 := by
        unfold obligationListRun at ho
        unfold obligationList obligationLoop
        by_cases h1 : args0.Has "obligations" = true
        · by_cases h2 : (args0.Get "obligations").IsArray = true
          · simp only [h1, h2, if_true] at ho ⊢
            cases hf : (args0.Get "obligations").elems.foldl (obligationStepRun n)
                (some ObligationState.init) with
            | none => rw [hf] at ho; simp at ho
            | some st' =>
              rw [hf] at ho
              simp only [Option.map_some', Option.some.injEq] at ho
              rw [← ho, obligationFoldRun_some n _ _ _ hf]
          · simp only [h1, h2, if_true, if_false, Bool.false_eq_true] at ho ⊢
            simpa using ho.symm
        · simp only [h1, if_false, Bool.false_eq_true] at ho ⊢
          simpa using ho.symm
      rw [← h, hobs]
      rfl

theorem EnforceRequestRun_returned (n : Nat)
    (checkRequest : PolicyManager → Request → Effect × String)
    (self : Session) (args : List JSValue) (r : Enforced)
    (h : EnforceRequestRun n checkRequest self args = Outcome.returned r) :
    EnforceRequest n checkRequest self args = Except.ok r := by
  unfold EnforceRequestRun at h
  unfold EnforceRequest
  split at h
  · simp at h
  · rename_i args0 rest
    by_cases ho : args0.IsObject = true
    · simp only [ho, Bool.true_eq_false, if_false] at h ⊢
      cases hb : buildRequestRun n args0 with
      | none => rw [hb] at h; simp at h
      | some req =>
        rw [hb] at h
        have hreq := buildRequestRun_some n args0 req hb
        cases hp : self.pminst with
        | none => rw [hp] at h; simp at h
        | some pm =>
          rw [hp] at h
          simp only [Outcome.returned.injEq] at h
          simp only
          rw [← h, hreq]
    · have ho' : args0.IsObject = false := by simpa using ho
      simp [ho'] at h

/-! ## Inputs on which a call dies -/

/-- C9 (the code departs from the claim): on `nullObligationInput`, whose
`obligations` array holds the single element null, every element is invalid, yet
the call does not return with an empty obligation list: it dies at pm.cc:337,
where `ToObject()` of null is dereferenced. -/
theorem null_obligation_kills_call (n : Nat) :
    nullObligationInput.IsObject = true ∧
    nullObligationInput.Get "obligations" = JSValue.array [JSValue.null] ∧
    specIncluded n JSValue.null = false ∧
    EnforceRequestRun n permitAll sampleSession [nullObligationInput] = Outcome.died :=
  ⟨by decide, rfl, rfl, rfl⟩

/-- C14 (the code departs from the claim): three objects as first argument on
which the call neither throws nor returns the code of the engine but dies: a
null `subjectInfo` (pm.cc:182), a null element of `obligations` (pm.cc:337) and a
trigger whose `purpose` is the number 3 (pm.cc:441-443). -/
theorem malformed_content_kills_call (n : Nat) :
    nullSubjectInput.IsObject = true ∧
    EnforceRequestRun n permitAll sampleSession [nullSubjectInput] = Outcome.died ∧
    nullObligationInput.IsObject = true ∧
    EnforceRequestRun n permitAll sampleSession [nullObligationInput] = Outcome.died ∧
    numberPurposeInput.IsObject = true ∧
    EnforceRequestRun n permitAll sampleSession [numberPurposeInput] = Outcome.died :=
  ⟨by decide, rfl, by decide, rfl, by decide, rfl⟩

/-- C18 (the code departs from the claim): given the object `numberKnownSeed`,
whose known ids are the number 3, on a session with a live engine, `ReloadPolicy`
does not return 0: it dies at pm.cc:658-660, where the known ids are cast to an
array and their length is read, whatever the engine constructor would do. -/
theorem reload_with_object_dies
    (engineOutcome : String → List (String × List String) → Outcome Unit) :
    numberKnownSeed.IsObject = true ∧
    numberKnownSeed.Get knownIdKey = JSValue.number 3 ∧
    sampleSession.pminst.isSome = true ∧
    ReloadPolicyRun engineOutcome sampleSession [numberKnownSeed] = Outcome.died :=
  ⟨by decide, rfl, rfl, rfl⟩

/-- C20 (the code departs from the claim): `nullSubjectInput` and
`nullSubjectInputWithExtra` are objects that agree on every recognized key and
differ in the unknown key `x` only, yet neither call returns without error: both
die at pm.cc:182. -/
theorem agreeing_inputs_both_die (n : Nat) :
    nullSubjectInput.IsObject = true ∧ nullSubjectInputWithExtra.IsObject = true ∧
    agreeInput nullSubjectInput nullSubjectInputWithExtra ∧
    EnforceRequestRun n permitAll sampleSession [nullSubjectInput] = Outcome.died ∧
    EnforceRequestRun n permitAll sampleSession [nullSubjectInputWithExtra] = Outcome.died :=
  ⟨by decide, by decide,
    by simp [agreeInput, agreeGroup, agreeOn, nullSubjectInput, nullSubjectInputWithExtra,
      JSValue.Has, JSValue.Get, JSValue.IsArray, JSValue.elems],
    rfl, rfl⟩

/-! ## The attribute round trip -/

/-- C11 (as stated, refuted): on `catalogInput nulString` and on
`catalogInput hanString` every catalog field is present with a string value, the
value of `userId` being `nulString` and `hanString`, yet the category `user-id` of
the built request is not the one-element sequence of that value: the NUL has
become a space, and the character U+4E2D has become `-`. -/
theorem round_trip_alters_strings :
    (∀ e ∈ subjectCatalog ++ resourceCatalog ++ environmentCatalog,
      hasCatalogField (catalogInput nulString) e = true ∧
      (catalogField (catalogInput nulString) e).IsString = true) ∧
    catalogField (catalogInput nulString) ("subjectInfo", "userId", "user-id") =
      JSValue.string nulString ∧
    mapFind (buildRequest 1 (catalogInput nulString)).subject_attrs "user-id" = some ["a b"] ∧
    mapFind (buildRequest 1 (catalogInput nulString)).subject_attrs "user-id" ≠
      some [nulString] ∧
    (∀ e ∈ subjectCatalog ++ resourceCatalog ++ environmentCatalog,
      hasCatalogField (catalogInput hanString) e = true ∧
      (catalogField (catalogInput hanString) e).IsString = true) ∧
    catalogField (catalogInput hanString) ("subjectInfo", "userId", "user-id") =
      JSValue.string hanString ∧
    mapFind (buildRequest 1 (catalogInput hanString)).subject_attrs "user-id" = some ["-"] ∧
    mapFind (buildRequest 1 (catalogInput hanString)).subject_attrs "user-id" ≠
      some [hanString] :=
  ⟨by decide, rfl, by decide, by decide, by decide, rfl, by decide, by decide⟩

/-- C11 (amended): for every input in which each catalog field of resourceInfo,
subjectInfo, widgetInfo, deviceInfo and environmentInfo is present with a string
value made of ASCII characters other than NUL, every Subject and Resource
category of the built request is the one-element sequence of the value of the
field mapped to it, and every Environment category is the value of its field. -/
theorem attribute_round_trip (n : Nat) (args0 : JSValue)
    (h : ∀ e ∈ subjectCatalog ++ resourceCatalog ++ environmentCatalog,
      hasCatalogField args0 e = true ∧ (catalogField args0 e).IsAsciiText = true) :
    (∀ e ∈ subjectCatalog, mapFind (buildRequest n args0).subject_attrs e.2.2 =
      (catalogField args0 e).stringValue.map (fun s => [s])) ∧
    (∀ e ∈ resourceCatalog, mapFind (buildRequest n args0).resource_attrs e.2.2 =
      (catalogField args0 e).stringValue.map (fun s => [s])) ∧
    (∀ e ∈ environmentCatalog, mapFind (buildRequest n args0).environment_attrs e.2.2 =
      (catalogField args0 e).stringValue) := by
  have key := AsciiValue_of_IsAsciiText
  refine ⟨?_, ?_, ?_⟩
  · intro e he
    have h' := h e (by simp [he])
    simp [buildRequest, subjectAttrs_lookup args0 e he, h'.1, key _ h'.2]
  · intro e he
    have h' := h e (by simp [he])
    simp [buildRequest, resourceAttrs_lookup args0 e he, h'.1, key _ h'.2]
  · intro e he
    have h' := h e (by simp [he])
    simp [buildRequest, environmentAttrs_lookup args0 e he, h'.1, key _ h'.2]

theorem attribute_round_trip_witness :
    (∀ e ∈ subjectCatalog ++ resourceCatalog ++ environmentCatalog,
      hasCatalogField (catalogInput "alice") e = true ∧
      (catalogField (catalogInput "alice") e).IsAsciiText = true) ∧
    (∀ e ∈ subjectCatalog, mapFind (buildRequest 1 (catalogInput "alice")).subject_attrs e.2.2 =
      (catalogField (catalogInput "alice") e).stringValue.map (fun s => [s])) ∧
    (∀ e ∈ resourceCatalog,
      mapFind (buildRequest 1 (catalogInput "alice")).resource_attrs e.2.2 =
      (catalogField (catalogInput "alice") e).stringValue.map (fun s => [s])) ∧
    (∀ e ∈ environmentCatalog,
      mapFind (buildRequest 1 (catalogInput "alice")).environment_attrs e.2.2 =
      (catalogField (catalogInput "alice") e).stringValue) :=
  ⟨by decide, attribute_round_trip 1 (catalogInput "alice") (by decide)⟩

/-! ## Construction and the stored path -/

/-- C19 (as stated, refuted): after a construction with the string `nulString`
as path, `GetPolicyFilename` does not return the path given at construction (the
NUL has become a space), and neither does it after a construction with the path
`hanString` (the character U+4E2D has become `-`). -/
theorem filename_differs_from_given_path :
    (JSValue.string nulString).IsString = true ∧ (JSValue.object []).IsObject = true ∧
    (∃ s : Session,
      New engineReturns [JSValue.string nulString, JSValue.object []] = Outcome.returned s ∧
      GetPolicyFilename s = "a b" ∧ GetPolicyFilename s ≠ nulString) ∧
    (JSValue.string hanString).IsString = true ∧
    (∃ s : Session,
      New engineReturns [JSValue.string hanString, JSValue.object []] = Outcome.returned s ∧
      GetPolicyFilename s = "-" ∧ GetPolicyFilename s ≠ hanString) :=
  ⟨rfl, rfl, ⟨_, rfl, by decide, by decide⟩, rfl, ⟨_, rfl, by decide, by decide⟩⟩

/-- C19 (amended): `GetPolicyFilename` returns the policy file path given at
construction when that path consists of ASCII characters other than NUL, and the
stored path is left unchanged by every `EnforceRequest` and every `ReloadPolicy`
call, whether the call succeeds or fails; a successful reload creates the new
engine from the same path. -/
theorem policy_filename_frame :
    (∀ (engineOutcome : String → List (String × List String) → Outcome Unit)
        (path : String) (seed : JSValue) (rest : List JSValue),
      seed.IsObject = true → seedFault seed = false → asciiText path = true →
      engineOutcome (JSValue.string path).AsciiValue (newSeed seed) = Outcome.returned () →
      ∃ s : Session,
        New engineOutcome (JSValue.string path :: seed :: rest) = Outcome.returned s ∧
        GetPolicyFilename s = path) ∧
    (∀ (n : Nat) (checkRequest : PolicyManager → Request → Effect × String)
        (self : Session) (args : List JSValue) (r : Enforced),
      EnforceRequest n checkRequest self args = Except.ok r →
        r.session.policyFileName = self.policyFileName ∧
        GetPolicyFilename r.session = GetPolicyFilename self) ∧
    (∀ (self : Session) (args : List JSValue),
      (ReloadPolicy self args).1.policyFileName = self.policyFileName ∧
      GetPolicyFilename (ReloadPolicy self args).1 = GetPolicyFilename self ∧
      ((ReloadPolicy self args).2 = Except.ok 0 →
        ∃ engine : PolicyManager, (ReloadPolicy self args).1.pminst = some engine ∧
          engine.policyFileName = self.policyFileName)) := by
  refine ⟨?_, ?_, ?_⟩
  · intro engineOutcome path seed rest hseed hfault hascii hengine
    have hs : (JSValue.string path).AsciiValue = path := by
      have := AsciiValue_of_IsAsciiText (JSValue.string path) hascii
      simpa [JSValue.stringValue] using this.symm
    refine ⟨{ m_count := 0,
              pminst := some { policyFileName := (JSValue.string path).AsciiValue,
                               pip := newSeed seed },
              policyFileName := (JSValue.string path).AsciiValue }, ?_, ?_⟩
    · simp only [New, JSValue.IsString, hseed, hfault, hengine]
      rfl
    · simp only [GetPolicyFilename, hs]
      exact cString_of_asciiText path hascii
  · intro n checkRequest self args r h
    have hp : r.session.policyFileName = self.policyFileName := by
      unfold EnforceRequest at h
      split at h
      · simp at h
      · split at h
        · simp at h
        · split at h
          · simp at h
          · simp only [Except.ok.injEq] at h
            rw [← h]
    exact ⟨hp, by rw [GetPolicyFilename, GetPolicyFilename, hp]⟩
  · intro self args
    have hp : (ReloadPolicy self args).1.policyFileName = self.policyFileName := by
      unfold ReloadPolicy
      split
      · rfl
      · split
        · split <;> rfl
        · rfl
    refine ⟨hp, by rw [GetPolicyFilename, GetPolicyFilename, hp], ?_⟩
    unfold ReloadPolicy
    split
    · simp
    · split
      · split
        · simp
        · intro _
          exact ⟨_, rfl, rfl⟩
      · simp

theorem policy_filename_frame_witness :
    sampleSeed.IsObject = true ∧ seedFault sampleSeed = false ∧
    asciiText "policy.xml" = true ∧
    engineReturns (JSValue.string "policy.xml").AsciiValue (newSeed sampleSeed) =
      Outcome.returned () ∧
    (∃ s : Session,
      New engineReturns (JSValue.string "policy.xml" :: sampleSeed :: []) = Outcome.returned s ∧
      GetPolicyFilename s = "policy.xml") ∧
    (ReloadPolicy sampleSession [sampleSeed]).2 = Except.ok 0 ∧
    GetPolicyFilename (ReloadPolicy sampleSession [sampleSeed]).1 =
      GetPolicyFilename sampleSession ∧
    (∃ engine : PolicyManager, (ReloadPolicy sampleSession [sampleSeed]).1.pminst = some engine ∧
      engine.policyFileName = sampleSession.policyFileName) :=
  ⟨by decide, by decide, by decide, rfl,
    policy_filename_frame.1 engineReturns "policy.xml" sampleSeed [] (by decide) (by decide)
      (by decide) rfl,
    rfl,
    (policy_filename_frame.2.2 sampleSession [sampleSeed]).2.1,
    (policy_filename_frame.2.2 sampleSession [sampleSeed]).2.2 rfl⟩

/-! ## The environment attribute set -/

/-- C25 (as stated, refuted): on `nulProfileInput` and on `hanProfileInput`,
whose `environmentInfo` has the strings `nulString` and `hanString` as `profile`,
the category `profile` is present but is not mapped to the value of the field:
the NUL has become a space, and the character U+4E2D has become `-`. -/
theorem environment_value_altered :
    hasCatalogField nulProfileInput ("environmentInfo", "profile", "profile") = true ∧
    catalogField nulProfileInput ("environmentInfo", "profile", "profile") =
      JSValue.string nulString ∧
    mapFind (buildRequest 1 nulProfileInput).environment_attrs "profile" = some "a b" ∧
    mapFind (buildRequest 1 nulProfileInput).environment_attrs "profile" ≠ some nulString ∧
    hasCatalogField hanProfileInput ("environmentInfo", "profile", "profile") = true ∧
    catalogField hanProfileInput ("environmentInfo", "profile", "profile") =
      JSValue.string hanString ∧
    mapFind (buildRequest 1 hanProfileInput).environment_attrs "profile" = some "-" ∧
    mapFind (buildRequest 1 hanProfileInput).environment_attrs "profile" ≠ some hanString :=
  ⟨by decide, rfl, by decide, by decide, by decide, rfl, by decide, by decide⟩

/-- C25 (amended): the Environment attribute set of the built request contains a
category (profile, timemin, days-of-week, days-of-month) iff `environmentInfo` is
present and has that field; the category then holds one string, the value of the
field as the binding reads it, which is the value of the field itself when that
is a string of ASCII characters other than NUL; no other key occurs, and with no
`environmentInfo` the set is the empty mapping, so it does not cover its catalog
when fields are missing. -/
theorem environment_partial_mapping (n : Nat) (args0 : JSValue) :
    (∀ e ∈ environmentCatalog,
      ((mapFind (buildRequest n args0).environment_attrs e.2.2).isSome = true ↔
        (args0.Has "environmentInfo" = true ∧
          (args0.Get "environmentInfo").Has e.2.1 = true)) ∧
      (hasCatalogField args0 e = true →
        mapFind (buildRequest n args0).environment_attrs e.2.2 =
          some (catalogField args0 e).AsciiValue) ∧
      (hasCatalogField args0 e = true → (catalogField args0 e).IsAsciiText = true →
        mapFind (buildRequest n args0).environment_attrs e.2.2 =
          (catalogField args0 e).stringValue) ∧
      (hasCatalogField args0 e = false →
        mapFind (buildRequest n args0).environment_attrs e.2.2 = none)) ∧
    (∀ k, k ∉ environmentCatalog.map (fun e => e.2.2) →
      mapFind (buildRequest n args0).environment_attrs k = none) ∧
    (args0.Has "environmentInfo" = false → (buildRequest n args0).environment_attrs = []) := by
  refine ⟨?_, ?_, ?_⟩
  · intro e he
    have hg : e.1 = "environmentInfo" := by
      simp only [environmentCatalog, List.mem_cons, List.mem_singleton, List.not_mem_nil,
        or_false] at he
      rcases he with rfl | rfl | rfl | rfl <;> rfl
    have hl := environmentAttrs_lookup args0 e he
    simp only [buildRequest, hl]
    refine ⟨?_, ?_, ?_, ?_⟩
    · by_cases hf : hasCatalogField args0 e = true
      · have hf' := hf
        simp only [hasCatalogField, hg, Bool.and_eq_true] at hf'
        simp [hf, hf'.1, hf'.2]
      · have hf' := hf
        simp only [hasCatalogField, hg, Bool.and_eq_true] at hf'
        simp only [hf, if_false, Option.isSome_none, Bool.false_eq_true, false_iff]
        exact hf'
    · intro hf
      simp [hf]
    · intro hf hc
      simp [hf, AsciiValue_of_IsAsciiText _ hc]
    · intro hf
      simp [hf]
  · intro k hk
    exact environmentAttrs_outside args0 k hk
  · intro h
    simp [buildRequest, environmentAttrs, h]

theorem environment_partial_mapping_witness :
    hasCatalogField profileInput ("environmentInfo", "profile", "profile") = true ∧
    (catalogField profileInput ("environmentInfo", "profile", "profile")).IsAsciiText = true ∧
    mapFind (buildRequest 1 profileInput).environment_attrs "profile" = some "home" ∧
    hasCatalogField profileInput ("environmentInfo", "timemin", "timemin") = false ∧
    mapFind (buildRequest 1 profileInput).environment_attrs "timemin" = none ∧
    aliceInput.Has "environmentInfo" = false ∧
    (buildRequest 1 aliceInput).environment_attrs = [] :=
  ⟨by decide, by decide,
    ((environment_partial_mapping 1 profileInput).1 ("environmentInfo", "profile", "profile")
      (by decide)).2.2.1 (by decide) (by decide),
    by decide,
    ((environment_partial_mapping 1 profileInput).1 ("environmentInfo", "timemin", "timemin")
      (by decide)).2.2.2 (by decide),
    by decide,
    (environment_partial_mapping 1 aliceInput).2.2 (by decide)⟩

end PolicyManagerInt
